import Mathlib

/- Formal model of the thenextquant trading framework core:
   order-status normalization and order-map maintenance of the per-venue
   trading sessions (quant/platform/binance.py, okex_future.py,
   okex_margin.py, binance_future.py), the event bus (quant/event.py),
   and the session constructors.  Python dicts are modelled as
   association lists with Python dict semantics (first matching entry is
   the binding; insertion appends; update rewrites in place). -/

namespace TheNextQuant

/-- Error values (quant/error.py wraps an arbitrary message; we keep the
message string). -/
abbrev Err := String

/-- Modelled from the spec: normalized order status vocabulary
`{SUBMITTED, PARTIAL_FILLED, FILLED, CANCELED, FAILED}` (§4.3); the
constants live in quant/order.py which is not under src/.  `statusNone`
is the constructor default before any update is applied. -/
inductive OrderStatus where
  | statusNone
  | submitted
  | partialFilled
  | filled
  | canceled
  | failed
deriving DecidableEq, Repr

/-- Modelled from the spec: the Order data model of §3 (quant/order.py is
not under src/): platform, account, strategy, symbol, side, price,
quantity, remaining quantity, average fill price, status, create/update
time, trade-intent tag.  The constructor stores the fields it is given
and leaves defaults elsewhere; venue-reported numeric strings are
modelled by their rational value. -/
structure Order where
  platform : String := ""
  account : String := ""
  strategy : String := ""
  orderNo : String := ""
  action : String := ""
  orderType : String := ""
  symbol : String := ""
  price : ℚ := 0
  quantity : ℚ := 0
  remain : ℚ := 0
  status : OrderStatus := .statusNone
  avgPrice : ℚ := 0
  ctime : Int := 0
  utime : Int := 0
  tradeType : Int := 0
deriving DecidableEq, Repr

/-- Python dict lookup: the binding of key `k`, if any. -/
def dictGet (m : List (String × α)) (k : String) : Option α :=
  (m.find? (fun p => p.1 == k)).map (fun p => p.2)

/-- Python dict assignment `m[k] = v`: rewrite the existing binding in
place, otherwise append a new binding. -/
def dictSet (m : List (String × α)) (k : String) (v : α) : List (String × α) :=
  if m.any (fun p => p.1 == k) then
    m.map (fun p => if p.1 == k then (k, v) else p)
  else
    m ++ [(k, v)]

/-- Python dict `m.pop(k)`: drop the binding of `k`. -/
def dictPop (m : List (String × α)) (k : String) : List (String × α) :=
  m.filter (fun p => p.1 != k)

theorem find?_map_overwrite (m : List (String × α)) (k : String) (v : α)
    (h : m.any (fun p => p.1 == k) = true) :
    (m.map (fun p => if p.1 == k then (k, v) else p)).find? (fun p => p.1 == k)
      = some (k, v) := by
  induction m with
  | nil => simp at h
  | cons p rest ih =>
    rw [List.map_cons]
    by_cases hp : p.1 = k
    · rw [if_pos (by simpa using hp), List.find?_cons_of_pos _ (by simp)]
    · rw [if_neg (by simpa using hp), List.find?_cons_of_neg _ (by simpa using hp)]
      apply ih
      rw [List.any_cons] at h
      rcases Bool.or_eq_true_iff.mp h with h | h
      · exact absurd (by simpa using h) hp
      · exact h

theorem find?_append_absent (m : List (String × α)) (k : String) (v : α)
    (h : m.any (fun p => p.1 == k) = false) :
    (m ++ [(k, v)]).find? (fun p => p.1 == k) = some (k, v) := by
  induction m with
  | nil => simp [List.find?]
  | cons p rest ih =>
    rw [List.any_cons, Bool.or_eq_false_iff] at h
    rw [List.cons_append, List.find?_cons_of_neg _ (by simp [h.1])]
    exact ih h.2

theorem dictGet_dictSet_self (m : List (String × α)) (k : String) (v : α) :
    dictGet (dictSet m k v) k = some v := by
  unfold dictGet dictSet
  by_cases h : m.any (fun p => p.1 == k) = true
  · rw [if_pos h, find?_map_overwrite m k v h]
    rfl
  · rw [if_neg h, find?_append_absent m k v (Bool.not_eq_true _ ▸ h)]
    rfl

theorem dictGet_dictPop_self (m : List (String × α)) (k : String) :
    dictGet (dictPop m k) k = none := by
  unfold dictGet dictPop
  induction m with
  | nil => simp
  | cons p rest ih =>
    by_cases hp : p.1 = k
    · simp only [List.filter]
      rw [show (p.1 != k) = false by simp [hp]]
      exact ih
    · simp only [List.filter]
      rw [show (p.1 != k) = true by simpa using hp]
      simp only [List.find?]
      rw [show (p.1 == k) = false by simpa using hp]
      exact ih

theorem dictSet_length_of_get_none (m : List (String × α)) (k : String) (v : α)
    (h : dictGet m k = none) : (dictSet m k v).length = m.length + 1 := by
  unfold dictGet at h
  rw [Option.map_eq_none', List.find?_eq_none] at h
  unfold dictSet
  rw [if_neg]
  · simp
  · intro hany
    rcases List.any_eq_true.mp hany with ⟨p, hp, hpk⟩
    exact absurd hpk (h p hp)

/- ------------------------------------------------------------------
   BinanceTrade (quant/platform/binance.py): the session's identity
   fields plus its live order map. -/

/-- Identity and order map of a `BinanceTrade` session
(quant/platform/binance.py lines 254-272). -/
structure BinanceSession where
  platform : String
  account : String
  strategy : String
  symbol : String
  orders : List (String × Order)
deriving DecidableEq, Repr

/-- An `executionReport` websocket message as consumed by
`BinanceTrade.process` (binance.py lines 440-476): order id `i`, client
order id `c`, venue status `X`, side `S`, order type `o`, price `p`,
original quantity `q`, cumulative filled quantity `z`, create time `O`
and transaction time `T`.  Numeric strings are modelled by their
rational value. -/
structure BinanceExecReport where
  i : String
  c : String
  X : String
  S : String
  o : String
  p : ℚ
  q : ℚ
  z : ℚ
  O : Int
  T : Int
deriving DecidableEq, Repr

/-- The composite order id `"{i}_{c}"` used as key of the order map. -/
def binanceOrderNo (msg : BinanceExecReport) : String :=
  msg.i ++ "_" ++ msg.c

/-- The fixed venue-status normalization table of `BinanceTrade.process`
(binance.py lines 443-457): unrecognized venue statuses map to `none`
(the update is dropped). -/
def binanceStatusTable (X : String) : Option OrderStatus :=
  if X = "NEW" then some .submitted
  else if X = "PARTIALLY_FILLED" then some .partialFilled
  else if X = "FILLED" then some .filled
  else if X = "CANCELED" then some .canceled
  else if X = "REJECTED" then some .failed
  else if X = "EXPIRED" then some .failed
  else none

/-- `BinanceTrade.process` on an `executionReport` message (binance.py
lines 435-478).  Returns the new session state and the order passed to
the order-update callback (`none` when the update was dropped).  The
in-place mutation of the shared `Order` object is modelled by rewriting
the binding in the order map. -/
def binanceProcess (s : BinanceSession) (msg : BinanceExecReport) :
    BinanceSession × Option Order :=
  let order_no := binanceOrderNo msg
  match binanceStatusTable msg.X with
  | none => (s, none)
  | some status =>
    let order :=
      match dictGet s.orders order_no with
      | some o => o
      | none =>
        { platform := s.platform
          account := s.account
          strategy := s.strategy
          orderNo := order_no
          action := msg.S
          orderType := msg.o
          symbol := s.symbol
          price := msg.p
          quantity := msg.q
          ctime := msg.O }
    let order := { order with remain := msg.q - msg.z, status := status, utime := msg.T }
    ({ s with orders := dictSet s.orders order_no order }, some order)

/-- Sequential processing of streamed order updates in arrival order,
collecting the orders emitted to the order-update callback. -/
def binanceProcessAll (s : BinanceSession) :
    List BinanceExecReport → BinanceSession × List Order
  | [] => (s, [])
  | msg :: rest =>
    let (s1, emitted) := binanceProcess s msg
    let (s2, tail) := binanceProcessAll s1 rest
    (s2, emitted.toList ++ tail)

theorem binanceProcess_unknown (s : BinanceSession) (msg : BinanceExecReport)
    (h : binanceStatusTable msg.X = none) : binanceProcess s msg = (s, none) := by
  unfold binanceProcess
  rw [h]

theorem binanceProcess_known_emits (s : BinanceSession) (msg : BinanceExecReport)
    (st : OrderStatus) (h : binanceStatusTable msg.X = some st) :
    ((binanceProcess s msg).2.map Order.status = some st) ∧
      ((dictGet (binanceProcess s msg).1.orders (binanceOrderNo msg)).map Order.status
        = some st) := by
  unfold binanceProcess
  rw [h]
  refine ⟨rfl, ?_⟩
  simp only [dictGet_dictSet_self, Option.map_some']

theorem binanceProcessAll_statuses (s : BinanceSession)
    (msgs : List BinanceExecReport) :
    ((binanceProcessAll s msgs).2.map Order.status)
      = msgs.filterMap (fun m => binanceStatusTable m.X) := by
  induction msgs generalizing s with
  | nil => rfl
  | cons msg rest ih =>
    unfold binanceProcessAll
    cases h : binanceStatusTable msg.X with
    | none =>
      rw [binanceProcess_unknown s msg h]
      simpa [h] using ih s
    | some st =>
      unfold binanceProcess
      rw [h]
      simpa [h] using ih _

/- ------------------------------------------------------------------
   OKEx sessions (quant/platform/okex_margin.py, okex_future.py). -/

/-- Modelled from the spec: side constant `"BUY"` from quant/order.py
(not under src/), the trade-side vocabulary of the Order model (§3). -/
def ORDER_ACTION_BUY : String := "BUY"

/-- Modelled from the spec: side constant `"SELL"` from quant/order.py
(not under src/). -/
def ORDER_ACTION_SELL : String := "SELL"

/-- Identity and order map of an OKEx trading session (okex_margin.py
lines 219-239, okex_future.py lines 219-238). -/
structure OkexSession where
  platform : String
  account : String
  strategy : String
  symbol : String
  orders : List (String × Order)
deriving DecidableEq, Repr

/-- An order record as consumed by `OKExMarginTrade._update_order`
(okex_margin.py lines 459-508): venue order id, venue state code,
size/filled size, price, side, and the create/update timestamps already
converted to millisecond integers (the converter
`tools.utctime_str_to_mts` lives in quant/utils/tools.py, not under
src/; we model its result). -/
structure OkexMarginOrderInfo where
  order_id : String
  state : String
  size : ℚ
  filled_size : ℚ
  price : ℚ
  side : String
  ctime : Int
  utime : Int
deriving DecidableEq, Repr

/-- The fixed venue-state normalization table of
`OKExMarginTrade._update_order` (okex_margin.py lines 469-481). -/
def okexMarginStatusTable (state : String) : Option OrderStatus :=
  if state = "-2" then some .failed
  else if state = "-1" then some .canceled
  else if state = "0" then some .submitted
  else if state = "1" then some .partialFilled
  else if state = "2" then some .filled
  else none

/-- `OKExMarginTrade._update_order` (okex_margin.py lines 459-508).
Returns the new session state and the updated order returned to the
caller (`none` when the venue state is unrecognized).  Terminal
normalized statuses (FAILED, CANCELED, FILLED) are popped from the live
order map after the update. -/
def okexMarginUpdateOrder (s : OkexSession) (info : OkexMarginOrderInfo) :
    OkexSession × Option Order :=
  let order_no := info.order_id
  let remain := info.size - info.filled_size
  match okexMarginStatusTable info.state with
  | none => (s, none)
  | some status =>
    let order :=
      match dictGet s.orders order_no with
      | some o => { o with remain := remain, status := status, price := info.price }
      | none =>
        { platform := s.platform
          account := s.account
          strategy := s.strategy
          orderNo := order_no
          action := if info.side = "buy" then ORDER_ACTION_BUY else ORDER_ACTION_SELL
          symbol := s.symbol
          price := info.price
          quantity := info.size
          remain := remain
          status := status
          avgPrice := info.price }
    let order := { order with ctime := info.ctime, utime := info.utime }
    let m := dictSet s.orders order_no order
    let m := if status = .failed ∨ status = .canceled ∨ status = .filled then
        dictPop m order_no
      else m
    ({ s with orders := m }, some order)

/-- Sequential application of streamed margin order updates, collecting
the orders emitted to the order-update callback. -/
def okexMarginProcessAll (s : OkexSession) :
    List OkexMarginOrderInfo → OkexSession × List Order
  | [] => (s, [])
  | info :: rest =>
    let (s1, emitted) := okexMarginUpdateOrder s info
    let (s2, tail) := okexMarginProcessAll s1 rest
    (s2, emitted.toList ++ tail)

theorem okexMarginUpdateOrder_unknown (s : OkexSession)
    (info : OkexMarginOrderInfo) (h : okexMarginStatusTable info.state = none) :
    okexMarginUpdateOrder s info = (s, none) := by
  unfold okexMarginUpdateOrder
  rw [h]

theorem okexMarginUpdateOrder_known_emits (s : OkexSession)
    (info : OkexMarginOrderInfo) (st : OrderStatus)
    (h : okexMarginStatusTable info.state = some st) :
    (okexMarginUpdateOrder s info).2.map Order.status = some st := by
  unfold okexMarginUpdateOrder
  rw [h]
  cases h2 : dictGet s.orders info.order_id <;> simp [h2]

theorem okexMarginProcessAll_statuses (s : OkexSession)
    (infos : List OkexMarginOrderInfo) :
    ((okexMarginProcessAll s infos).2.map Order.status)
      = infos.filterMap (fun i => okexMarginStatusTable i.state) := by
  induction infos generalizing s with
  | nil => rfl
  | cons info rest ih =>
    unfold okexMarginProcessAll
    cases h : okexMarginStatusTable info.state with
    | none =>
      rw [okexMarginUpdateOrder_unknown s info h]
      simpa [h] using ih s
    | some st =>
      have he := okexMarginUpdateOrder_known_emits s info st h
      cases hq : (okexMarginUpdateOrder s info).2 with
      | none => rw [hq] at he; simp at he
      | some o =>
        rw [hq] at he
        simp only [Option.map_some', Option.some.injEq] at he
        simp [hq, h, he, ih]

/-- An order record as consumed by `OKExFutureTrade._update_order`
(okex_future.py lines 442-485): venue order id, venue state code,
contract size and filled quantity, venue trade-type code (`"1"`..`"4"`),
price and average fill price, and the order timestamp already converted
to milliseconds. -/
structure OkexFutureOrderInfo where
  order_id : String
  state : String
  size : ℚ
  filled_qty : ℚ
  type : String
  price : ℚ
  price_avg : ℚ
  timestamp : Int
deriving DecidableEq, Repr

/-- The fixed venue-state normalization table of
`OKExFutureTrade._update_order` (okex_future.py lines 450-461). -/
def okexFutureStatusTable (state : String) : Option OrderStatus :=
  if state = "-2" then some .failed
  else if state = "-1" then some .canceled
  else if state = "0" then some .submitted
  else if state = "1" then some .partialFilled
  else if state = "2" then some .filled
  else none

/-- Python `int()` on the four documented OKEx future trade-type codes
(`"1"` open long .. `"4"` close short), used for the order's trade-intent
tag. -/
def okexTradeTypeInt (t : String) : Int :=
  if t = "1" then 1
  else if t = "2" then 2
  else if t = "3" then 3
  else if t = "4" then 4
  else 0

/-- `OKExFutureTrade._update_order` (okex_future.py lines 442-485).
Returns the new session state and the updated order returned to the
caller.  After the update, the order is always (re)stored in the map and
then popped again exactly when the venue state is `"-1"` (canceled) or
`"2"` (filled); a `"-2"` (failed) order stays in the map. -/
def okexFutureUpdateOrder (s : OkexSession) (info : OkexFutureOrderInfo) :
    OkexSession × Option Order :=
  let order_no := info.order_id
  let remain := info.size - info.filled_qty
  let ctime := info.timestamp
  match okexFutureStatusTable info.state with
  | none => (s, none)
  | some status =>
    let order :=
      match dictGet s.orders order_no with
      | some o => o
      | none =>
        { platform := s.platform
          account := s.account
          strategy := s.strategy
          orderNo := order_no
          action := if info.type = "1" ∨ info.type = "4" then ORDER_ACTION_BUY
            else ORDER_ACTION_SELL
          symbol := s.symbol
          price := info.price
          quantity := info.size
          tradeType := okexTradeTypeInt info.type }
    let order := { order with remain := remain, status := status,
                              avgPrice := info.price_avg, ctime := ctime, utime := ctime }
    let m := dictSet s.orders order_no order
    let m := if info.state = "-1" ∨ info.state = "2" then dictPop m order_no else m
    ({ s with orders := m }, some order)

/- ------------------------------------------------------------------
   Bootstrap reconciliation of BinanceTrade.connected_callback
   (binance.py lines 319-368). -/

/-- An open-order record returned by the REST open-orders snapshot and
consumed by `BinanceTrade.connected_callback` (binance.py lines
329-362). -/
structure BinanceOpenOrderInfo where
  orderId : String
  clientOrderId : String
  side : String
  type : String
  price : ℚ
  origQty : ℚ
  executedQty : ℚ
  status : String
  time : Int
  updateTime : Int
deriving DecidableEq, Repr

/-- The venue-status normalization table of
`BinanceTrade.connected_callback` (binance.py lines 331-345); unknown
statuses make the loop `continue` past the record. -/
def binanceBootstrapStatusTable (st : String) : Option OrderStatus :=
  if st = "NEW" then some .submitted
  else if st = "PARTIALLY_FILLED" then some .partialFilled
  else if st = "FILLED" then some .filled
  else if st = "CANCELED" then some .canceled
  else if st = "REJECTED" then some .failed
  else if st = "EXPIRED" then some .failed
  else none

/-- The seeding loop of `BinanceTrade.connected_callback` (binance.py
lines 329-365): each recognized open order is stored in the order map
and emitted to the order-update callback. -/
def binanceBootstrapFold (s : BinanceSession) :
    List BinanceOpenOrderInfo → BinanceSession × List Order
  | [] => (s, [])
  | info :: rest =>
    match binanceBootstrapStatusTable info.status with
    | none => binanceBootstrapFold s rest
    | some st =>
      let order_no := info.orderId ++ "_" ++ info.clientOrderId
      let order : Order :=
        { platform := s.platform
          account := s.account
          strategy := s.strategy
          orderNo := order_no
          action := info.side
          orderType := info.type
          symbol := s.symbol
          price := info.price
          quantity := info.origQty
          remain := info.origQty - info.executedQty
          status := st
          ctime := info.time
          utime := info.updateTime }
      let s1 := { s with orders := dictSet s.orders order_no order }
      let (s2, tail) := binanceBootstrapFold s1 rest
      (s2, order :: tail)

/-- `BinanceTrade.connected_callback` (binance.py lines 319-368): fetch
the open-order snapshot; on REST error report `(False, error)` to the
init-result callback, otherwise seed the order map and report
`(True, None)`. -/
def binanceConnectedCallback (s : BinanceSession)
    (fetch : Except Err (List BinanceOpenOrderInfo)) :
    BinanceSession × List Order × (Bool × Option Err) :=
  match fetch with
  | .error err => (s, [], (false, some ("get open orders error: " ++ err)))
  | .ok infos =>
    let (s1, emitted) := binanceBootstrapFold s infos
    (s1, emitted, (true, none))

/- ------------------------------------------------------------------
   Concrete fixtures used by the witnesses. -/

def exBinanceSession : BinanceSession :=
  { platform := "binance", account := "a@x.com", strategy := "s1",
    symbol := "ETH/BTC", orders := [] }

def exMsgNew : BinanceExecReport :=
  { i := "123", c := "cli3", X := "NEW", S := "BUY", o := "LIMIT",
    p := 10, q := 2, z := 0, O := 100, T := 200 }

def exMsgUnknown : BinanceExecReport :=
  { i := "123", c := "cli3", X := "PENDING_CANCEL", S := "BUY", o := "LIMIT",
    p := 10, q := 2, z := 0, O := 100, T := 200 }

def exOkexSession : OkexSession :=
  { platform := "okex_margin", account := "a@x.com", strategy := "s1",
    symbol := "BTC-USD-190628", orders := [] }

def exMarginInfoFilled : OkexMarginOrderInfo :=
  { order_id := "9988", state := "2", size := 4, filled_size := 4,
    price := 50, side := "buy", ctime := 11, utime := 22 }

def exMarginInfoOpen : OkexMarginOrderInfo :=
  { order_id := "9988", state := "0", size := 4, filled_size := 0,
    price := 50, side := "buy", ctime := 11, utime := 22 }

def exMarginInfoUnknown : OkexMarginOrderInfo :=
  { order_id := "9988", state := "3", size := 4, filled_size := 0,
    price := 50, side := "buy", ctime := 11, utime := 22 }

def exFutureInfoCanceled : OkexFutureOrderInfo :=
  { order_id := "7777", state := "-1", size := 3, filled_qty := 1,
    type := "1", price := 99, price_avg := 98, timestamp := 33 }

def exFutureInfoFailed : OkexFutureOrderInfo :=
  { order_id := "7777", state := "-2", size := 3, filled_qty := 0,
    type := "1", price := 99, price_avg := 0, timestamp := 33 }

/-- C1: streamed order updates are normalized through the fixed
venue-status table in arrival order - the emitted status sequence is
exactly the table mapped over the recognized venue statuses, a
recognized update stores exactly the normalized status, and an update
with an unrecognized venue status leaves the session (order map and all
order fields) completely unchanged and emits nothing, for both
`BinanceTrade.process` and `OKExMarginTrade._update_order`. -/
theorem orderStatusNormalization :
    (∀ (s : BinanceSession) (msg : BinanceExecReport),
      binanceStatusTable msg.X = none → binanceProcess s msg = (s, none)) ∧
    (∀ (s : BinanceSession) (msg : BinanceExecReport) (st : OrderStatus),
      binanceStatusTable msg.X = some st →
        (binanceProcess s msg).2.map Order.status = some st ∧
        (dictGet (binanceProcess s msg).1.orders (binanceOrderNo msg)).map Order.status
          = some st) ∧
    (∀ (s : BinanceSession) (msgs : List BinanceExecReport),
      ((binanceProcessAll s msgs).2.map Order.status)
        = msgs.filterMap (fun m => binanceStatusTable m.X)) ∧
    (∀ (s : OkexSession) (info : OkexMarginOrderInfo),
      okexMarginStatusTable info.state = none → okexMarginUpdateOrder s info = (s, none)) ∧
    (∀ (s : OkexSession) (infos : List OkexMarginOrderInfo),
      ((okexMarginProcessAll s infos).2.map Order.status)
        = infos.filterMap (fun i => okexMarginStatusTable i.state)) :=
  ⟨binanceProcess_unknown, binanceProcess_known_emits, binanceProcessAll_statuses,
    okexMarginUpdateOrder_unknown, okexMarginProcessAll_statuses⟩

theorem orderStatusNormalization_witness :
    binanceProcess exBinanceSession exMsgUnknown = (exBinanceSession, none) ∧
    (binanceProcess exBinanceSession exMsgNew).2.map Order.status
      = some OrderStatus.submitted ∧
    okexMarginUpdateOrder exOkexSession exMarginInfoUnknown = (exOkexSession, none) ∧
    ((binanceProcessAll exBinanceSession [exMsgNew, exMsgUnknown]).2.map Order.status)
      = [OrderStatus.submitted] :=
  ⟨orderStatusNormalization.1 exBinanceSession exMsgUnknown (by decide),
    (orderStatusNormalization.2.1 exBinanceSession exMsgNew OrderStatus.submitted
      (by decide)).1,
    orderStatusNormalization.2.2.2.1 exOkexSession exMarginInfoUnknown (by decide),
    orderStatusNormalization.2.2.1 exBinanceSession [exMsgNew, exMsgUnknown]⟩

/-- C6: a streamed update with a recognized venue status for an order id
not present in the session's order map creates a new Order entry under
that id, built from the streamed update alone, and grows the order map
by exactly one entry. -/
theorem streamedUpdateFirstSighting (s : BinanceSession) (msg : BinanceExecReport)
    (st : OrderStatus) (hst : binanceStatusTable msg.X = some st)
    (habs : dictGet s.orders (binanceOrderNo msg) = none) :
    (binanceProcess s msg).1.orders.length = s.orders.length + 1 ∧
    dictGet (binanceProcess s msg).1.orders (binanceOrderNo msg) =
      some { platform := s.platform, account := s.account, strategy := s.strategy,
             orderNo := binanceOrderNo msg, action := msg.S, orderType := msg.o,
             symbol := s.symbol, price := msg.p, quantity := msg.q,
             remain := msg.q - msg.z, status := st, ctime := msg.O, utime := msg.T } ∧
    (binanceProcess s msg).2 =
      some { platform := s.platform, account := s.account, strategy := s.strategy,
             orderNo := binanceOrderNo msg, action := msg.S, orderType := msg.o,
             symbol := s.symbol, price := msg.p, quantity := msg.q,
             remain := msg.q - msg.z, status := st, ctime := msg.O, utime := msg.T } := by
  unfold binanceProcess
  rw [hst]
  simp only [habs]
  refine ⟨dictSet_length_of_get_none s.orders (binanceOrderNo msg) _ habs, ?_, trivial⟩
  rw [dictGet_dictSet_self]

def exBootInfo1 : BinanceOpenOrderInfo :=
  { orderId := "1", clientOrderId := "c1", side := "BUY", type := "LIMIT",
    price := 9, origQty := 1, executedQty := 0, status := "NEW",
    time := 1, updateTime := 2 }

def exBootInfo2 : BinanceOpenOrderInfo :=
  { orderId := "2", clientOrderId := "c2", side := "SELL", type := "LIMIT",
    price := 11, origQty := 1, executedQty := 0, status := "PARTIALLY_FILLED",
    time := 3, updateTime := 4 }

/-- The session after a bootstrap that found two open orders via REST. -/
def exBootSession : BinanceSession :=
  (binanceConnectedCallback exBinanceSession (.ok [exBootInfo1, exBootInfo2])).1

theorem streamedUpdateFirstSighting_witness :
    exBootSession.orders.length = 2 ∧
    dictGet exBootSession.orders (binanceOrderNo exMsgNew) = none ∧
    (binanceProcess exBootSession exMsgNew).1.orders.length = 3 ∧
    (dictGet (binanceProcess exBootSession exMsgNew).1.orders
      (binanceOrderNo exMsgNew)).map Order.orderNo = some "123_cli3" := by
  have h := streamedUpdateFirstSighting exBootSession exMsgNew OrderStatus.submitted
    (by decide) (by decide)
  refine ⟨by decide, by decide, ?_, ?_⟩
  · rw [h.1]
    decide
  · rw [h.2.1]
    decide

/-- C10: terminal-order retention differs between the OKEx sessions:
`OKExFutureTrade._update_order` pops the order id from the live map for
venue states `"-1"` (canceled) and `"2"` (filled) but keeps a `"-2"`
(failed) order in the map, while `OKExMarginTrade._update_order` pops
all three terminal normalized statuses (FAILED, CANCELED, FILLED) and
keeps non-terminal ones; in every case the returned Order carries the
applied update. -/
theorem terminalOrderRetention :
    (∀ (s : OkexSession) (info : OkexFutureOrderInfo),
      info.state = "-1" ∨ info.state = "2" →
        dictGet (okexFutureUpdateOrder s info).1.orders info.order_id = none ∧
        (okexFutureUpdateOrder s info).2.map Order.status
          = some (if info.state = "-1" then .canceled else .filled) ∧
        (okexFutureUpdateOrder s info).2.map Order.remain
          = some (info.size - info.filled_qty)) ∧
    (∀ (s : OkexSession) (info : OkexFutureOrderInfo),
      info.state = "-2" →
        (dictGet (okexFutureUpdateOrder s info).1.orders info.order_id).map Order.status
          = some .failed ∧
        (okexFutureUpdateOrder s info).2.map Order.status = some .failed) ∧
    (∀ (s : OkexSession) (info : OkexMarginOrderInfo) (st : OrderStatus),
      okexMarginStatusTable info.state = some st →
        st = .failed ∨ st = .canceled ∨ st = .filled →
        dictGet (okexMarginUpdateOrder s info).1.orders info.order_id = none ∧
        (okexMarginUpdateOrder s info).2.map Order.status = some st ∧
        (okexMarginUpdateOrder s info).2.map Order.remain
          = some (info.size - info.filled_size)) ∧
    (∀ (s : OkexSession) (info : OkexMarginOrderInfo) (st : OrderStatus),
      okexMarginStatusTable info.state = some st →
        ¬(st = .failed ∨ st = .canceled ∨ st = .filled) →
        (dictGet (okexMarginUpdateOrder s info).1.orders info.order_id).map Order.status
          = some st) := by
  refine ⟨?_, ?_, ?_, ?_⟩
  · intro s info h
    have hst : okexFutureStatusTable info.state
        = some (if info.state = "-1" then .canceled else .filled) := by
      rcases h with h | h <;> rw [h] <;> decide
    unfold okexFutureUpdateOrder
    rw [hst]
    have hpop : (info.state = "-1" ∨ info.state = "2") = True := by
      simp only [eq_iff_iff, iff_true]
      exact h
    cases h2 : dictGet s.orders info.order_id <;>
      simp [h2, hpop, dictGet_dictPop_self]
  · intro s info h
    have hst : okexFutureStatusTable info.state = some .failed := by
      rw [h]; decide
    have hpop : ¬(info.state = "-1" ∨ info.state = "2") := by
      rw [h]; decide
    unfold okexFutureUpdateOrder
    rw [hst]
    cases h2 : dictGet s.orders info.order_id <;>
      simp [h2, hpop, dictGet_dictSet_self]
  · intro s info st hst hterm
    unfold okexMarginUpdateOrder
    rw [hst]
    cases h2 : dictGet s.orders info.order_id <;>
      simp [h2, hterm, dictGet_dictPop_self]
  · intro s info st hst hterm
    unfold okexMarginUpdateOrder
    rw [hst]
    cases h2 : dictGet s.orders info.order_id <;>
      simp [h2, hterm, dictGet_dictSet_self]

theorem terminalOrderRetention_witness :
    dictGet (okexFutureUpdateOrder exOkexSession exFutureInfoCanceled).1.orders
      "7777" = none ∧
    (dictGet (okexFutureUpdateOrder exOkexSession exFutureInfoFailed).1.orders
      "7777").map Order.status = some OrderStatus.failed ∧
    dictGet (okexMarginUpdateOrder exOkexSession exMarginInfoFilled).1.orders
      "9988" = none ∧
    (dictGet (okexMarginUpdateOrder exOkexSession exMarginInfoOpen).1.orders
      "9988").map Order.status = some OrderStatus.submitted :=
  ⟨(terminalOrderRetention.1 exOkexSession exFutureInfoCanceled (Or.inl (by decide))).1,
    (terminalOrderRetention.2.1 exOkexSession exFutureInfoFailed (by decide)).1,
    (terminalOrderRetention.2.2.1 exOkexSession exMarginInfoFilled OrderStatus.filled
      (by decide) (by decide)).1,
    terminalOrderRetention.2.2.2 exOkexSession exMarginInfoOpen OrderStatus.submitted
      (by decide) (by decide)⟩

/- ------------------------------------------------------------------
   EventCenter (quant/event.py): subscriber registry, per-queue
   callback-dispatch table, reconnect transition, and the consume/ack
   path.  Callbacks are identified by opaque numeric ids. -/

/-- A registered Subscription as stored in `EventCenter._subscribers`
(event.py line 430): the event's routing address, the callback, and the
multi-match flag. -/
structure Sub where
  exchange : String
  routing_key : String
  queue : String
  cb : Nat
  multi : Bool
deriving DecidableEq, Repr

/-- The `"{exchange}:{routing_key}"` dispatch key of
`EventCenter._add_event_handler` (event.py line 538). -/
def handlerKey (exchange routing_key : String) : String :=
  exchange ++ ":" ++ routing_key

/-- `EventCenter._add_event_handler` (event.py lines 534-543): append
the callback to the key's list, creating the entry if absent. -/
def addEventHandler (h : List (String × List Nat)) (key : String) (cb : Nat) :
    List (String × List Nat) :=
  match h with
  | [] => [(key, [cb])]
  | (k, cbs) :: rest =>
    if k = key then (k, cbs ++ [cb]) :: rest
    else (k, cbs) :: addEventHandler rest key cb

/-- One iteration of the `_bind_and_consume` loop (event.py lines
479-485 with `_initialize`, lines 487-511): a multi subscription is
consumed directly by the transport and registers nothing; an
exact-match subscription registers its callback in the dispatch
table. -/
def bindStep (h : List (String × List Nat)) (sub : Sub) : List (String × List Nat) :=
  if sub.multi then h else addEventHandler h (handlerKey sub.exchange sub.routing_key) sub.cb

/-- State of `EventCenter` relevant to reconnection (event.py lines
403-414): connected flag, subscriber registry and dispatch table. -/
structure BusState where
  connected : Bool
  subscribers : List Sub
  eventHandler : List (String × List Nat)
deriving DecidableEq, Repr

/-- The dispatch table `_bind_and_consume` builds from an empty table. -/
def buildHandler (subs : List Sub) : List (String × List Nat) :=
  subs.foldl bindStep []

/-- `EventCenter._check_connection` on a lost connection (event.py lines
545-556) followed by `connect(reconnect=True)` (lines 442-477): the
dispatch table is cleared, the connection is re-established, and
`_bind_and_consume` re-binds every registered subscriber in order. -/
def checkConnectionLost (s : BusState) : BusState :=
  let cleared : BusState := { s with connected := false, eventHandler := [] }
  let reconnected : BusState := { cleared with connected := true }
  { reconnected with eventHandler := reconnected.subscribers.foldl bindStep reconnected.eventHandler }

/-- `n` consecutive lost-connection/reconnect cycles. -/
def reconnectN (s : BusState) : Nat → BusState
  | 0 => s
  | n + 1 => reconnectN (checkConnectionLost s) n

/-- Total number of occurrences of a callback across the dispatch
table. -/
def totalCount (h : List (String × List Nat)) (cb : Nat) : Nat :=
  (h.map (fun e => e.2.count cb)).sum

theorem totalCount_addEventHandler (h : List (String × List Nat)) (key : String)
    (cb' cb : Nat) :
    totalCount (addEventHandler h key cb') cb
      = totalCount h cb + (if cb' = cb then 1 else 0) := by
  induction h with
  | nil => simp [addEventHandler, totalCount, List.count_singleton]
  | cons e rest ih =>
    obtain ⟨k, cbs⟩ := e
    unfold addEventHandler
    by_cases hk : k = key
    · rw [if_pos hk]
      simp only [totalCount, List.map_cons, List.sum_cons, List.count_append]
      rcases eq_or_ne cb' cb with hc | hc
      · simp [hc]
        omega
      · simp [hc, if_neg (by simpa using hc), List.count_cons]
    · rw [if_neg hk]
      simp only [totalCount, List.map_cons, List.sum_cons] at *
      rw [ih]
      omega

theorem totalCount_foldl_bindStep (subs : List Sub) (h : List (String × List Nat))
    (cb : Nat) :
    totalCount (subs.foldl bindStep h) cb
      = totalCount h cb
        + (subs.filter (fun sub => !sub.multi && sub.cb == cb)).length := by
  induction subs generalizing h with
  | nil => simp
  | cons sub rest ih =>
    rw [List.foldl_cons, ih]
    unfold bindStep
    by_cases hm : sub.multi
    · rw [if_pos hm, List.filter_cons]
      rw [show (!sub.multi && sub.cb == cb) = false by simp [hm]]
      simp
    · rw [if_neg hm, totalCount_addEventHandler, List.filter_cons]
      have hm' : sub.multi = false := by simpa using hm
      rw [show (!sub.multi && sub.cb == cb) = (sub.cb == cb) by simp [hm']]
      by_cases hc : sub.cb = cb
      · rw [if_pos hc, if_pos (show (sub.cb == cb) = true by simpa using hc)]
        simp only [List.length_cons]
        omega
      · rw [if_neg hc, if_neg (show ¬(sub.cb == cb) = true by simpa using hc)]
        omega

theorem checkConnectionLost_spec (s : BusState) :
    checkConnectionLost s
      = { connected := true, subscribers := s.subscribers,
          eventHandler := buildHandler s.subscribers } := rfl

theorem reconnectN_spec (s : BusState) (n : Nat) (h : 1 ≤ n) :
    reconnectN s n
      = { connected := true, subscribers := s.subscribers,
          eventHandler := buildHandler s.subscribers } := by
  induction n generalizing s with
  | zero => omega
  | succ n ih =>
    rcases Nat.eq_or_lt_of_le h with h1 | h1
    · rw [← h1]
      rfl
    · unfold reconnectN
      rw [ih (checkConnectionLost s) (by omega)]
      rfl

/-- C2: after any positive number of consecutive bus reconnects, the
dispatch table is exactly the one rebuilt from the (unchanged)
subscriber registry, every callback occurs in it exactly as many times
as exact-match subscriptions carry it, and in particular a Subscription
whose callback no other subscription shares appears exactly once -
nothing is lost and nothing is duplicated. -/
theorem busReconnectRebindsExactlyOnce (s : BusState) (n : Nat) (h : 1 ≤ n) :
    (reconnectN s n).subscribers = s.subscribers ∧
    (reconnectN s n).eventHandler = buildHandler s.subscribers ∧
    (∀ cb : Nat,
      totalCount (reconnectN s n).eventHandler cb
        = (s.subscribers.filter (fun sub => !sub.multi && sub.cb == cb)).length) ∧
    (∀ sub ∈ s.subscribers, sub.multi = false →
      (s.subscribers.filter (fun x => !x.multi && x.cb == sub.cb)).length = 1 →
      totalCount (reconnectN s n).eventHandler sub.cb = 1) := by
  rw [reconnectN_spec s n h]
  refine ⟨rfl, rfl, ?_, ?_⟩
  · intro cb
    simpa [buildHandler, totalCount] using totalCount_foldl_bindStep s.subscribers [] cb
  · intro sub _ _ huniq
    have := totalCount_foldl_bindStep s.subscribers [] sub.cb
    simpa [buildHandler, totalCount, huniq] using this

def exSubMulti : Sub :=
  { exchange := "Orderbook", routing_key := "okex.BTC-USDT", queue := "",
    cb := 1, multi := true }

def exSubOrder : Sub :=
  { exchange := "EVENT_ORDER", routing_key := "binance.a.ETH-BTC",
    queue := "svr.EVENT_ORDER.binance.a.ETH-BTC", cb := 2, multi := false }

def exSubAsset : Sub :=
  { exchange := "EVENT_ASSET", routing_key := "binance.a",
    queue := "svr.EVENT_ASSET.binance.a", cb := 3, multi := false }

def exBus : BusState :=
  { connected := true
    subscribers := [exSubMulti, exSubOrder, exSubAsset]
    eventHandler := [] }

theorem busReconnectRebindsExactlyOnce_witness :
    (reconnectN exBus 3).eventHandler = buildHandler exBus.subscribers ∧
    totalCount (reconnectN exBus 3).eventHandler 2 = 1 ∧
    totalCount (reconnectN exBus 3).eventHandler 1 = 0 := by
  have h := busReconnectRebindsExactlyOnce exBus 3 (by decide)
  refine ⟨h.2.1, ?_, ?_⟩
  · exact h.2.2.2 exSubOrder (by decide) (by decide) (by decide)
  · rw [h.2.2.1 1]
    decide

/- ------------------------------------------------------------------
   The consume/ack path (event.py lines 513-532). -/

/-- An inbound broker message as seen by `_on_consume_event_msg`: the
envelope's exchange and routing key plus an opaque body. -/
structure InMsg where
  exchange : String
  routing_key : String
  body : Nat
deriving DecidableEq, Repr

/-- The dispatch loop `for func in funcs: SingleTask.run(...)` inside
the `try` block (event.py lines 526-527), with an abstract possibility
that scheduling a callback raises: the raised error aborts the loop and
is caught by the bare `except`. -/
def dispatchLoop (schedFails : Nat → Bool) : List Nat → List Nat × Bool
  | [] => ([], false)
  | f :: rest =>
    if schedFails f then ([], true)
    else (f :: (dispatchLoop schedFails rest).1, (dispatchLoop schedFails rest).2)

theorem dispatchLoop_all_ok (schedFails : Nat → Bool) (funcs : List Nat)
    (h : ∀ f ∈ funcs, schedFails f = false) :
    (dispatchLoop schedFails funcs).1 = funcs := by
  induction funcs with
  | nil => rfl
  | cons f rest ih =>
    unfold dispatchLoop
    rw [h f (by simp)]
    simp only [Bool.false_eq_true, if_false]
    exact congrArg (f :: ·) (ih (fun g hg => h g (by simp [hg])))

/-- `EventCenter._on_consume_event_msg` (event.py lines 513-532):
look up the callbacks registered under `"{exchange}:{routing_key}"`
(a missing key raises `KeyError` into the `except` block), dispatch
them via the scheduler, and acknowledge in the `finally` block.
Returns the dispatched callbacks and the number of acknowledgments
sent. -/
def onConsumeEventMsg (h : List (String × List Nat)) (schedFails : Nat → Bool)
    (msg : InMsg) : List Nat × Nat :=
  let key := handlerKey msg.exchange msg.routing_key
  match h.find? (fun e => e.1 == key) with
  | none => ([], 1)
  | some entry => ((dispatchLoop schedFails entry.2).1, 1)

/-- C8: every consumed exact-match message is acknowledged exactly once,
also when no handler is registered for its key or when dispatching
raises; and when the key is registered and nothing raises, exactly the
registered callbacks are dispatched before the acknowledgment. -/
theorem consumeAlwaysAcks :
    (∀ (h : List (String × List Nat)) (schedFails : Nat → Bool) (msg : InMsg),
      (onConsumeEventMsg h schedFails msg).2 = 1) ∧
    (∀ (h : List (String × List Nat)) (schedFails : Nat → Bool) (msg : InMsg) entry,
      h.find? (fun e => e.1 == handlerKey msg.exchange msg.routing_key) = some entry →
      (∀ f ∈ entry.2, schedFails f = false) →
      (onConsumeEventMsg h schedFails msg).1 = entry.2) := by
  constructor
  · intro h schedFails msg
    simp only [onConsumeEventMsg]
    cases h.find? (fun e => e.1 == handlerKey msg.exchange msg.routing_key) <;> rfl
  · intro h schedFails msg entry hfind hok
    simp only [onConsumeEventMsg]
    rw [hfind]
    exact dispatchLoop_all_ok schedFails entry.2 hok

theorem consumeAlwaysAcks_witness :
    (onConsumeEventMsg [] (fun _ => false)
      { exchange := "EVENT_ORDER", routing_key := "b.a.s", body := 0 }).2 = 1 ∧
    (onConsumeEventMsg [(handlerKey "EVENT_ORDER" "b.a.s", [2, 3])] (fun _ => true)
      { exchange := "EVENT_ORDER", routing_key := "b.a.s", body := 0 }).2 = 1 ∧
    (onConsumeEventMsg [(handlerKey "EVENT_ORDER" "b.a.s", [2, 3])] (fun _ => false)
      { exchange := "EVENT_ORDER", routing_key := "b.a.s", body := 0 }).1 = [2, 3] :=
  ⟨consumeAlwaysAcks.1 [] (fun _ => false)
      { exchange := "EVENT_ORDER", routing_key := "b.a.s", body := 0 },
    consumeAlwaysAcks.1 [(handlerKey "EVENT_ORDER" "b.a.s", [2, 3])] (fun _ => true)
      { exchange := "EVENT_ORDER", routing_key := "b.a.s", body := 0 },
    consumeAlwaysAcks.2 [(handlerKey "EVENT_ORDER" "b.a.s", [2, 3])] (fun _ => false)
      { exchange := "EVENT_ORDER", routing_key := "b.a.s", body := 0 }
      (handlerKey "EVENT_ORDER" "b.a.s", [2, 3]) (by decide) (by decide)⟩

/- ------------------------------------------------------------------
   OKExFutureTrade.revoke_order (okex_future.py lines 394-428).  The
   venue REST endpoints are an oracle: the open-orders snapshot and the
   per-order cancel outcome. -/

/-- The REST responses seen by one `revoke_order` call: the open-order
snapshot (`get_order_list(symbol, 6)`, reduced to its order ids) and the
cancel outcome per order id (`none` = success). -/
structure RevokeOracle where
  openOrders : Except Err (List String)
  revoke : String → Option Err

/-- The result value of `revoke_order`, one constructor per Python
return shape. -/
inductive RevokeResult where
  | revokeAll (ok : Bool) (err : Option Err)
  | single (order_no : String) (err : Option Err)
  | batch (succeeded : List String) (failed : List (String × Err))
deriving DecidableEq, Repr

/-- The cancel-all loop of the zero-argument shape (okex_future.py lines
404-409): cancel each open order in order, returning `(False, error)` at
the first REST error.  Also returns the ids actually attempted. -/
def revokeAllLoop (revoke : String → Option Err) :
    List String → (Bool × Option Err) × List String
  | [] => ((true, none), [])
  | order_no :: rest =>
    match revoke order_no with
    | some e => ((false, some e), [order_no])
    | none =>
      ((revokeAllLoop revoke rest).1, order_no :: (revokeAllLoop revoke rest).2)

/-- The best-effort batch loop of the multi-id shape (okex_future.py
lines 420-428): attempt every id, partitioning into successes and
`(id, error)` failures. -/
def revokeBatchLoop (revoke : String → Option Err) :
    List String → List String × List (String × Err)
  | [] => ([], [])
  | order_no :: rest =>
    match revoke order_no with
    | some e => ((revokeBatchLoop revoke rest).1, (order_no, e) :: (revokeBatchLoop revoke rest).2)
    | none => (order_no :: (revokeBatchLoop revoke rest).1, (revokeBatchLoop revoke rest).2)

/-- `OKExFutureTrade.revoke_order` (okex_future.py lines 394-428):
zero ids cancels every order of the open-order snapshot failing fast,
one id cancels that order and returns `(id, error-or-none)`, more than
one id runs the best-effort batch.  The second component is the list of
ids for which a cancel request was actually issued. -/
def okexFutureRevokeOrder (oracle : RevokeOracle) (order_nos : List String) :
    RevokeResult × List String :=
  match order_nos with
  | [] =>
    match oracle.openOrders with
    | .error e => (.revokeAll false (some e), [])
    | .ok ids => (.revokeAll (revokeAllLoop oracle.revoke ids).1.1
        (revokeAllLoop oracle.revoke ids).1.2, (revokeAllLoop oracle.revoke ids).2)
  | [order_no] => (.single order_no (oracle.revoke order_no), [order_no])
  | _ => (.batch (revokeBatchLoop oracle.revoke order_nos).1
      (revokeBatchLoop oracle.revoke order_nos).2, order_nos)

theorem revokeAllLoop_all_ok (revoke : String → Option Err) (ids : List String)
    (h : ∀ i ∈ ids, revoke i = none) :
    revokeAllLoop revoke ids = ((true, none), ids) := by
  induction ids with
  | nil => rfl
  | cons i rest ih =>
    unfold revokeAllLoop
    rw [h i (by simp)]
    rw [ih (fun j hj => h j (by simp [hj]))]

theorem revokeAllLoop_first_error (revoke : String → Option Err)
    (l1 l2 : List String) (x : String) (e : Err)
    (h1 : ∀ i ∈ l1, revoke i = none) (hx : revoke x = some e) :
    revokeAllLoop revoke (l1 ++ x :: l2) = ((false, some e), l1 ++ [x]) := by
  induction l1 with
  | nil =>
    rw [List.nil_append, revokeAllLoop, hx]
    rfl
  | cons i rest ih =>
    rw [List.cons_append, revokeAllLoop, h1 i (by simp)]
    rw [ih (fun j hj => h1 j (by simp [hj]))]
    rfl

theorem okexFutureRevokeOrder_nil_ok (oracle : RevokeOracle) (ids : List String)
    (h : oracle.openOrders = .ok ids) :
    okexFutureRevokeOrder oracle []
      = (.revokeAll (revokeAllLoop oracle.revoke ids).1.1
          (revokeAllLoop oracle.revoke ids).1.2, (revokeAllLoop oracle.revoke ids).2) := by
  unfold okexFutureRevokeOrder
  rw [h]

theorem revokeBatchLoop_spec (revoke : String → Option Err) (ids : List String) :
    revokeBatchLoop revoke ids
      = (ids.filter (fun i => (revoke i).isNone),
         ids.filterMap (fun i => (revoke i).map (fun e => (i, e)))) := by
  induction ids with
  | nil => rfl
  | cons i rest ih =>
    unfold revokeBatchLoop
    cases hi : revoke i <;> simp [hi, ih, List.filter_cons, List.filterMap_cons]

/-- C3: the three call shapes of `revoke_order`.  Zero ids: a failed
snapshot fetch returns `(False, error)` with no cancel attempted; an
all-success run cancels exactly the snapshot's orders and returns
`(True, None)`; a first failure stops the loop right there, returning
`(False, error)` with only the earlier (already canceled) orders and the
failing one attempted.  One id: returns that id paired with the
error-or-none of its cancel.  More than one id: every id is attempted
and the result is the partition of successes and `(id, error)`
failures - one error never fails the whole batch. -/
theorem revokeOrderCallShapes :
    (∀ (oracle : RevokeOracle) (e : Err), oracle.openOrders = .error e →
      okexFutureRevokeOrder oracle [] = (.revokeAll false (some e), [])) ∧
    (∀ (oracle : RevokeOracle) (ids : List String), oracle.openOrders = .ok ids →
      (∀ i ∈ ids, oracle.revoke i = none) →
      okexFutureRevokeOrder oracle [] = (.revokeAll true none, ids)) ∧
    (∀ (oracle : RevokeOracle) (l1 l2 : List String) (x : String) (e : Err),
      oracle.openOrders = .ok (l1 ++ x :: l2) →
      (∀ i ∈ l1, oracle.revoke i = none) → oracle.revoke x = some e →
      okexFutureRevokeOrder oracle [] = (.revokeAll false (some e), l1 ++ [x])) ∧
    (∀ (oracle : RevokeOracle) (order_no : String),
      okexFutureRevokeOrder oracle [order_no]
        = (.single order_no (oracle.revoke order_no), [order_no])) ∧
    (∀ (oracle : RevokeOracle) (order_nos : List String), 1 < order_nos.length →
      okexFutureRevokeOrder oracle order_nos
        = (.batch (order_nos.filter (fun i => (oracle.revoke i).isNone))
            (order_nos.filterMap (fun i => (oracle.revoke i).map (fun e => (i, e)))),
           order_nos)) := by
  refine ⟨?_, ?_, ?_, ?_, ?_⟩
  · intro oracle e h
    unfold okexFutureRevokeOrder
    rw [h]
  · intro oracle ids h hall
    rw [okexFutureRevokeOrder_nil_ok oracle ids h,
      revokeAllLoop_all_ok oracle.revoke ids hall]
  · intro oracle l1 l2 x e h h1 hx
    rw [okexFutureRevokeOrder_nil_ok oracle _ h,
      revokeAllLoop_first_error oracle.revoke l1 l2 x e h1 hx]
  · intro oracle order_no
    rfl
  · intro oracle order_nos hlen
    match order_nos, hlen with
    | a :: b :: rest, _ =>
      simp only [okexFutureRevokeOrder]
      rw [revokeBatchLoop_spec]

def exOracle : RevokeOracle :=
  { openOrders := .ok ["11", "22", "33"]
    revoke := fun i => if i = "22" then some "rate limit" else none }

theorem revokeOrderCallShapes_witness :
    okexFutureRevokeOrder exOracle [] = (.revokeAll false (some "rate limit"), ["11", "22"]) ∧
    okexFutureRevokeOrder exOracle ["22"] = (.single "22" (some "rate limit"), ["22"]) ∧
    okexFutureRevokeOrder exOracle ["11", "22", "33"]
      = (.batch ["11", "33"] [("22", "rate limit")], ["11", "22", "33"]) := by
  refine ⟨?_, ?_, ?_⟩
  · exact revokeOrderCallShapes.2.2.1 exOracle ["11"] ["33"] "22" "rate limit"
      rfl (by decide) (by decide)
  · exact revokeOrderCallShapes.2.2.2.1 exOracle "22"
  · have h := revokeOrderCallShapes.2.2.2.2 exOracle ["11", "22", "33"] (by decide)
    rw [h]
    decide

/- ------------------------------------------------------------------
   Session-constructor validation (binance.py lines 230-252,
   okex_future.py lines 193-217). -/

/-- Python falsiness of an optional string parameter: absent or empty. -/
def strMissing : Option String → Bool
  | none => true
  | some s => s = ""

/-- The keyword arguments checked by the trade-session constructors. -/
structure TradeKwargs where
  account : Option String
  strategy : Option String
  symbol : Option String
  access_key : Option String
  secret_key : Option String
  passphrase : Option String
  has_init_success_callback : Bool
deriving Repr

/-- Observable outcome of a session constructor: whether construction
ended in the failed state, the `(success, error)` invocations of the
init-result callback performed by the constructor itself, and whether
any connection bootstrap (listen-key fetch / websocket initialize) was
started. -/
structure InitOutcome where
  failed : Bool
  callbackCalls : List (Bool × Option Err)
  connectionStarted : Bool
deriving DecidableEq, Repr

/-- The error value `e` left by the validation chain of
`BinanceTrade.__init__` (binance.py lines 233-247): each failing check
overwrites `e`, so the last missing parameter wins. -/
def binanceInitError (k : TradeKwargs) : Option Err :=
  let e := if strMissing k.account then some "param account miss" else none
  let e := if strMissing k.strategy then some "param strategy miss" else e
  let e := if strMissing k.symbol then some "param symbol miss" else e
  let e := if strMissing k.access_key then some "param access_key miss" else e
  let e := if strMissing k.secret_key then some "param secret_key miss" else e
  e

/-- `BinanceTrade.__init__` (binance.py lines 230-284) reduced to its
observable effects: on a validation error it reports `(False, e)` to the
init-result callback (when one was supplied) and returns before any
connection is started; otherwise it starts the websocket bootstrap. -/
def binanceTradeInit (k : TradeKwargs) : InitOutcome :=
  match binanceInitError k with
  | some e =>
    { failed := true
      callbackCalls := if k.has_init_success_callback then [(false, some e)] else []
      connectionStarted := false }
  | none =>
    { failed := false, callbackCalls := [], connectionStarted := true }

/-- The error value `e` left by the validation chain of
`OKExFutureTrade.__init__` (okex_future.py lines 196-212), which also
requires `passphrase`. -/
def okexFutureInitError (k : TradeKwargs) : Option Err :=
  let e := if strMissing k.account then some "param account miss" else none
  let e := if strMissing k.strategy then some "param strategy miss" else e
  let e := if strMissing k.symbol then some "param symbol miss" else e
  let e := if strMissing k.access_key then some "param access_key miss" else e
  let e := if strMissing k.secret_key then some "param secret_key miss" else e
  let e := if strMissing k.passphrase then some "param passphrase miss" else e
  e

/-- `OKExFutureTrade.__init__` (okex_future.py lines 193-256) reduced to
its observable effects. -/
def okexFutureTradeInit (k : TradeKwargs) : InitOutcome :=
  match okexFutureInitError k with
  | some e =>
    { failed := true
      callbackCalls := if k.has_init_success_callback then [(false, some e)] else []
      connectionStarted := false }
  | none =>
    { failed := false, callbackCalls := [], connectionStarted := true }

theorem binanceInitError_isSome (k : TradeKwargs)
    (h : strMissing k.account ∨ strMissing k.strategy ∨ strMissing k.symbol ∨
      strMissing k.access_key ∨ strMissing k.secret_key) :
    (binanceInitError k).isSome = true := by
  unfold binanceInitError
  rcases h with h | h | h | h | h <;> simp only [h] <;> (repeat' split) <;> simp_all

theorem okexFutureInitError_isSome (k : TradeKwargs)
    (h : strMissing k.account ∨ strMissing k.strategy ∨ strMissing k.symbol ∨
      strMissing k.access_key ∨ strMissing k.secret_key ∨ strMissing k.passphrase) :
    (okexFutureInitError k).isSome = true := by
  unfold okexFutureInitError
  rcases h with h | h | h | h | h | h <;> simp only [h] <;> (repeat' split) <;> simp_all

/-- C7: a trade-session constructor invocation with a missing required
credential or parameter ends in the failed state, starts no connection,
and - when an init-result callback was supplied - reports `(false,
error)` to it exactly once, for `BinanceTrade.__init__` (account,
strategy, symbol, access_key, secret_key) and `OKExFutureTrade.__init__`
(those plus passphrase). -/
theorem tradeInitValidation :
    (∀ k : TradeKwargs,
      (strMissing k.account ∨ strMissing k.strategy ∨ strMissing k.symbol ∨
        strMissing k.access_key ∨ strMissing k.secret_key) →
      k.has_init_success_callback = true →
      (binanceTradeInit k).failed = true ∧
      (binanceTradeInit k).connectionStarted = false ∧
      (binanceTradeInit k).callbackCalls.length = 1 ∧
      (binanceTradeInit k).callbackCalls.map Prod.fst = [false]) ∧
    (∀ k : TradeKwargs,
      (strMissing k.account ∨ strMissing k.strategy ∨ strMissing k.symbol ∨
        strMissing k.access_key ∨ strMissing k.secret_key ∨ strMissing k.passphrase) →
      k.has_init_success_callback = true →
      (okexFutureTradeInit k).failed = true ∧
      (okexFutureTradeInit k).connectionStarted = false ∧
      (okexFutureTradeInit k).callbackCalls.length = 1 ∧
      (okexFutureTradeInit k).callbackCalls.map Prod.fst = [false]) := by
  constructor
  · intro k h hcb
    have hs := binanceInitError_isSome k h
    unfold binanceTradeInit
    cases he : binanceInitError k with
    | none => rw [he] at hs; simp at hs
    | some e => simp [hcb]
  · intro k h hcb
    have hs := okexFutureInitError_isSome k h
    unfold okexFutureTradeInit
    cases he : okexFutureInitError k with
    | none => rw [he] at hs; simp at hs
    | some e => simp [hcb]

def exKwargsMissingSecret : TradeKwargs :=
  { account := some "a@x.com", strategy := some "s1", symbol := some "ETH/BTC",
    access_key := some "ak", secret_key := none, passphrase := some "pp",
    has_init_success_callback := true }

theorem tradeInitValidation_witness :
    (binanceTradeInit exKwargsMissingSecret).failed = true ∧
    (binanceTradeInit exKwargsMissingSecret).connectionStarted = false ∧
    (binanceTradeInit exKwargsMissingSecret).callbackCalls
      = [(false, some "param secret_key miss")] ∧
    (okexFutureTradeInit exKwargsMissingSecret).callbackCalls.length = 1 :=
  have hb := tradeInitValidation.1 exKwargsMissingSecret
    (Or.inr (Or.inr (Or.inr (Or.inr (by decide))))) (by decide)
  have ho := tradeInitValidation.2 exKwargsMissingSecret
    (Or.inr (Or.inr (Or.inr (Or.inr (Or.inl (by decide)))))) (by decide)
  ⟨hb.1, hb.2.1, by decide, ho.2.2.1⟩

/- ------------------------------------------------------------------
   Position reconciliation of BinanceFutureTrade._check_position_update
   (binance_future.py lines 649-682). -/

/-- Modelled from the spec: the Position data model of §3 (long/short
quantity and average price, liquidation price, update time;
quant/position.py is not under src/).  `utime` is `none` until the first
update stamps it. -/
structure Position where
  long_quantity : ℚ := 0
  long_avg_price : ℚ := 0
  short_quantity : ℚ := 0
  short_avg_price : ℚ := 0
  liquid_price : ℚ := 0
  utime : Option Int := none
deriving DecidableEq, Repr

/-- Modelled from the spec: `Position.update` (quant/position.py, not
under src/) replaces the short/long quantity and average-price fields
and the liquidation price with the given values and stamps the current
time, as assumed by the diffing logic of `_check_position_update`. -/
def positionUpdate (p : Position)
    (short_quantity short_avg_price long_quantity long_avg_price liquid_price : ℚ)
    (now : Int) : Position :=
  { p with short_quantity := short_quantity, short_avg_price := short_avg_price,
           long_quantity := long_quantity, long_avg_price := long_avg_price,
           liquid_price := liquid_price, utime := some now }

/-- Python truthiness of `self._position.utime` (falsy when unset or
zero). -/
def utimeFalsy : Option Int → Bool
  | none => true
  | some t => t == 0

/-- The position snapshot entry for the session's symbol as read by
`_check_position_update` (binance_future.py lines 658-668). -/
structure PositionSnapshot where
  positionAmt : ℚ
  entryPrice : ℚ
deriving DecidableEq, Repr

/-- The diffing core of `_check_position_update` (binance_future.py
lines 653-682) after a successful snapshot fetch: baseline-reset on the
first post-bootstrap snapshot, then compare the signed position amount
against the cached long/short quantity and update/flag only on a
quantity change.  Returns the new cached position and whether the
position-update callback is invoked. -/
def positionDiff (p : Position) (info : PositionSnapshot) (now : Int) :
    Position × Bool :=
  let b := utimeFalsy p.utime
  let p0 := if b then positionUpdate p 0 0 0 0 0 now else p
  let size := info.positionAmt
  let average_price := info.entryPrice
  if 0 < size then
    if p0.long_quantity ≠ size then (positionUpdate p0 0 0 size average_price 0 now, true)
    else (p0, b)
  else if size < 0 then
    if p0.short_quantity ≠ -size then
      (positionUpdate p0 (-size) average_price 0 0 0 now, true)
    else (p0, b)
  else
    if p0.long_quantity ≠ 0 ∨ p0.short_quantity ≠ 0 then
      (positionUpdate p0 0 0 0 0 0 now, true)
    else (p0, b)

/-- `BinanceFutureTrade._check_position_update` (binance_future.py lines
649-682): no-op before the session is live (`self._ok`) and on a REST
error, otherwise the diffing core above. -/
def checkPositionUpdate (ok : Bool) (p : Position)
    (fetch : Except Err PositionSnapshot) (now : Int) : Position × Bool :=
  if !ok then (p, false)
  else
    match fetch with
    | .error _ => (p, false)
    | .ok info => positionDiff p info now

theorem positionDiff_first_fires (p : Position) (snap : PositionSnapshot) (now : Int)
    (h : utimeFalsy p.utime = true) : (positionDiff p snap now).2 = true := by
  unfold positionDiff
  simp only [h, if_true]
  split_ifs <;> rfl

theorem positionDiff_later_iff (p : Position) (snap : PositionSnapshot) (now : Int)
    (h : utimeFalsy p.utime = false) :
    (positionDiff p snap now).2 = true ↔
      ((0 < snap.positionAmt ∧ p.long_quantity ≠ snap.positionAmt) ∨
       (snap.positionAmt < 0 ∧ p.short_quantity ≠ -snap.positionAmt) ∨
       (snap.positionAmt = 0 ∧ (p.long_quantity ≠ 0 ∨ p.short_quantity ≠ 0))) := by
  unfold positionDiff
  simp only [h, Bool.false_eq_true, if_false]
  split_ifs with h1 h2 h3 h4 h5
  · simp only [true_iff]
    exact Or.inl ⟨h1, h2⟩
  · simp only [Bool.false_eq_true, false_iff]
    rintro (⟨_, hq⟩ | ⟨hlt, _⟩ | ⟨heq, _⟩)
    · exact h2 hq
    · exact absurd h1 (asymm hlt)
    · rw [heq] at h1
      exact lt_irrefl 0 h1
  · simp only [true_iff]
    exact Or.inr (Or.inl ⟨h3, h4⟩)
  · simp only [Bool.false_eq_true, false_iff]
    rintro (⟨hgt, _⟩ | ⟨_, hq⟩ | ⟨heq, _⟩)
    · exact h1 hgt
    · exact h4 hq
    · rw [heq] at h3
      exact lt_irrefl 0 h3
  · simp only [true_iff]
    exact Or.inr (Or.inr ⟨le_antisymm (not_lt.mp h1) (not_lt.mp h3), h5⟩)
  · simp only [Bool.false_eq_true, false_iff]
    rintro (⟨hgt, _⟩ | ⟨hlt, _⟩ | ⟨_, hq⟩)
    · exact h1 hgt
    · exact h3 hlt
    · exact h5 hq

theorem positionDiff_first_result (p : Position) (snap : PositionSnapshot) (now : Int)
    (h : utimeFalsy p.utime = true) :
    (positionDiff p snap now).1 =
      if 0 < snap.positionAmt then
        positionUpdate (positionUpdate p 0 0 0 0 0 now) 0 0 snap.positionAmt
          snap.entryPrice 0 now
      else if snap.positionAmt < 0 then
        positionUpdate (positionUpdate p 0 0 0 0 0 now) (-snap.positionAmt)
          snap.entryPrice 0 0 0 now
      else positionUpdate p 0 0 0 0 0 now := by
  unfold positionDiff
  simp only [h, if_true]
  split_ifs with h1 h2 h3 h4 h5 <;> try rfl
  · exfalso
    have h0 : (0 : ℚ) = snap.positionAmt := not_not.mp h2
    rw [← h0] at h1
    exact lt_irrefl 0 h1
  · exfalso
    have h0 : (0 : ℚ) = -snap.positionAmt := not_not.mp h4
    have : snap.positionAmt = 0 := by linarith [neg_eq_iff_eq_neg.mpr h0]
    rw [this] at h3
    exact lt_irrefl 0 h3

theorem positionDiff_second_identical_silent (p : Position) (snap : PositionSnapshot)
    (now1 now2 : Int) (h : utimeFalsy p.utime = true) (hnow : now1 ≠ 0) :
    (positionDiff (positionDiff p snap now1).1 snap now2).2 = false := by
  have hres := positionDiff_first_result p snap now1 h
  have hutime : (positionDiff p snap now1).1.utime = some now1 := by
    rw [hres]
    split_ifs <;> rfl
  have h2 : utimeFalsy (positionDiff p snap now1).1.utime = false := by
    rw [hutime]
    simpa [utimeFalsy] using hnow
  have hiff := positionDiff_later_iff (positionDiff p snap now1).1 snap now2 h2
  cases hsnd : (positionDiff (positionDiff p snap now1).1 snap now2).2 with
  | false => rfl
  | true =>
    exfalso
    rcases hiff.mp hsnd with ⟨hgt, hq⟩ | ⟨hlt, hq⟩ | ⟨heq, hq⟩
    · apply hq
      rw [hres, if_pos hgt]
      rfl
    · apply hq
      rw [hres, if_neg (asymm hlt), if_pos hlt]
      rfl
    · rcases hq with hq | hq
      · apply hq
        rw [hres, if_neg (show ¬(0 < snap.positionAmt) by rw [heq]; exact lt_irrefl 0),
          if_neg (show ¬(snap.positionAmt < 0) by rw [heq]; exact lt_irrefl 0)]
        rfl
      · apply hq
        rw [hres, if_neg (show ¬(0 < snap.positionAmt) by rw [heq]; exact lt_irrefl 0),
          if_neg (show ¬(snap.positionAmt < 0) by rw [heq]; exact lt_irrefl 0)]
        rfl

/-- The cached position of a live session holding a long position of 5
contracts at average price 100. -/
def exPositionHeld : Position :=
  { long_quantity := 5, long_avg_price := 100, short_quantity := 0,
    short_avg_price := 0, liquid_price := 0, utime := some 1000 }

/-- A later snapshot with the same quantity but a changed average
price. -/
def exSnapshotAvgChanged : PositionSnapshot :=
  { positionAmt := 5, entryPrice := 200 }

/-- C4 counterexample: a later snapshot whose average price changed
(200 against the cached 100) while the long quantity stayed 5 invokes
no position-update callback and leaves the cached position untouched -
refuting "invoked if and only if the long/short quantity or the average
price actually changed". -/
theorem positionAvgPriceChangeCounterexample :
    (checkPositionUpdate true exPositionHeld (.ok exSnapshotAvgChanged) 2000).2
      = false ∧
    (checkPositionUpdate true exPositionHeld (.ok exSnapshotAvgChanged) 2000).1
      = exPositionHeld ∧
    exPositionHeld.long_quantity = exSnapshotAvgChanged.positionAmt ∧
    exPositionHeld.long_avg_price ≠ exSnapshotAvgChanged.entryPrice ∧
    utimeFalsy exPositionHeld.utime = false := by
  refine ⟨?_, ?_, ?_, ?_, ?_⟩ <;> decide

/-- C4 (amended): the position-update callback is invoked on the first
post-bootstrap snapshot; on any later snapshot it is invoked if and only
if the signed position quantity changed (long side when positive, short
side when negative, either side leaving zero when flat) - a change of
the average price alone does not invoke it; two consecutive identical
snapshots produce exactly one callback; and nothing is invoked before
the session is live or on a REST error. -/
theorem positionUpdateCallbackAmended :
    (∀ (p : Position) (snap : PositionSnapshot) (now : Int),
      utimeFalsy p.utime = true →
      (checkPositionUpdate true p (.ok snap) now).2 = true) ∧
    (∀ (p : Position) (snap : PositionSnapshot) (now : Int),
      utimeFalsy p.utime = false →
      ((checkPositionUpdate true p (.ok snap) now).2 = true ↔
        ((0 < snap.positionAmt ∧ p.long_quantity ≠ snap.positionAmt) ∨
         (snap.positionAmt < 0 ∧ p.short_quantity ≠ -snap.positionAmt) ∨
         (snap.positionAmt = 0 ∧ (p.long_quantity ≠ 0 ∨ p.short_quantity ≠ 0))))) ∧
    (∀ (p : Position) (snap : PositionSnapshot) (now1 now2 : Int),
      utimeFalsy p.utime = true → now1 ≠ 0 →
      (checkPositionUpdate true p (.ok snap) now1).2 = true ∧
      (checkPositionUpdate true
        (checkPositionUpdate true p (.ok snap) now1).1 (.ok snap) now2).2 = false) ∧
    (∀ (p : Position) (fetch : Except Err PositionSnapshot) (now : Int),
      checkPositionUpdate false p fetch now = (p, false)) ∧
    (∀ (p : Position) (e : Err) (now : Int),
      checkPositionUpdate true p (.error e) now = (p, false)) := by
  refine ⟨?_, ?_, ?_, ?_, ?_⟩
  · intro p snap now h
    exact positionDiff_first_fires p snap now h
  · intro p snap now h
    exact positionDiff_later_iff p snap now h
  · intro p snap now1 now2 h hnow
    exact ⟨positionDiff_first_fires p snap now1 h,
      positionDiff_second_identical_silent p snap now1 now2 h hnow⟩
  · intro p fetch now
    rfl
  · intro p e now
    rfl

def exPositionFresh : Position := { utime := none }

def exSnapshotLong : PositionSnapshot := { positionAmt := 5, entryPrice := 100 }

theorem positionUpdateCallbackAmended_witness :
    (checkPositionUpdate true exPositionFresh (.ok exSnapshotLong) 1000).2 = true ∧
    (checkPositionUpdate true
      (checkPositionUpdate true exPositionFresh (.ok exSnapshotLong) 1000).1
      (.ok exSnapshotLong) 2000).2 = false ∧
    (checkPositionUpdate true exPositionHeld (.ok exSnapshotLong) 2000).2 = false ∧
    checkPositionUpdate false exPositionHeld (.ok exSnapshotLong) 2000
      = (exPositionHeld, false) :=
  have hpair := positionUpdateCallbackAmended.2.2.1 exPositionFresh exSnapshotLong
    1000 2000 (by decide) (by decide)
  have hlater := (positionUpdateCallbackAmended.2.1 exPositionHeld exSnapshotLong
    2000 (by decide))
  ⟨hpair.1, hpair.2,
    by
      cases hsnd : (checkPositionUpdate true exPositionHeld (.ok exSnapshotLong) 2000).2
      · rfl
      · exfalso
        rcases hlater.mp hsnd with ⟨_, hq⟩ | ⟨hlt, _⟩ | ⟨heq, _⟩
        · exact hq (by decide)
        · exact absurd hlt (by decide)
        · exact absurd heq (by decide),
    positionUpdateCallbackAmended.2.2.2.1 exPositionHeld (.ok exSnapshotLong) 2000⟩

/- ------------------------------------------------------------------
   The assets/orders/position properties (binance.py lines 286-292,
   okex_future.py lines 258-268) return `copy.copy(...)`, a SHALLOW
   copy.  To reason about aliasing we model Python object identity
   explicitly: dict objects and Order objects live in a heap and are
   addressed by numeric references. -/

/-- A reference to an Order object in the heap. -/
abbrev Ref := Nat

/-- Heap of one session: dict objects (id, entries mapping keys to
Order references), Order objects (reference, value), the id of the
session's live `self._orders` dict, and the next fresh id. -/
structure SessionHeap where
  counter : Nat
  dicts : List (Nat × List (String × Ref))
  objs : List (Ref × Order)
  sessionOrders : Nat
deriving DecidableEq, Repr

/-- Well-formed heap: every allocated dict id (the session's included)
is below the allocation counter. -/
def wfHeap (h : SessionHeap) : Prop :=
  h.sessionOrders < h.counter ∧ ∀ p ∈ h.dicts, p.1 < h.counter

instance (h : SessionHeap) : Decidable (wfHeap h) := by
  unfold wfHeap
  infer_instance

/-- The entries of the dict object with id `d`. -/
def heapDict (h : SessionHeap) (d : Nat) : List (String × Ref) :=
  ((h.dicts.find? (fun p => p.1 == d)).map (fun p => p.2)).getD []

/-- The Order object at reference `r`. -/
def heapObj (h : SessionHeap) (r : Ref) : Option Order :=
  (h.objs.find? (fun p => p.1 == r)).map (fun p => p.2)

/-- The `orders` property (binance.py lines 290-292):
`copy.copy(self._orders)` allocates a fresh dict object holding the
same (key, Order-reference) pairs, and returns its id to the caller. -/
def ordersProperty (h : SessionHeap) : SessionHeap × Nat :=
  ({ h with counter := h.counter + 1,
            dicts := (h.counter, heapDict h h.sessionOrders) :: h.dicts },
   h.counter)

/-- A caller assigning a binding into a dict object it holds. -/
def callerDictAssign (h : SessionHeap) (d : Nat) (k : String) (r : Ref) : SessionHeap :=
  { h with dicts := h.dicts.map (fun p => if p.1 == d then (p.1, dictSet p.2 k r) else p) }

/-- A caller deleting a binding from a dict object it holds. -/
def callerDictRemove (h : SessionHeap) (d : Nat) (k : String) : SessionHeap :=
  { h with dicts := h.dicts.map (fun p => if p.1 == d then (p.1, dictPop p.2 k) else p) }

/-- A caller mutating a field of an Order object it holds a reference
to (e.g. `order.status = ...`). -/
def callerSetStatus (h : SessionHeap) (r : Ref) (st : OrderStatus) : SessionHeap :=
  { h with objs := h.objs.map (fun p =>
      if p.1 == r then (p.1, { p.2 with status := st }) else p) }

/-- What the session itself observes through `self._orders`: each key
with the Order object its reference denotes. -/
def sessionView (h : SessionHeap) : List (String × Option Order) :=
  (heapDict h h.sessionOrders).map (fun p => (p.1, heapObj h p.2))

theorem find?_map_entry_other (l : List (Nat × β)) (d d' : Nat) (f : Nat × β → β)
    (hne : d' ≠ d) :
    ((l.map (fun p => if p.1 == d then (p.1, f p) else p)).find?
      (fun p => p.1 == d')) = l.find? (fun p => p.1 == d') := by
  induction l with
  | nil => rfl
  | cons p rest ih =>
    rw [List.map_cons]
    by_cases hd : p.1 = d
    · rw [if_pos (by simpa using hd)]
      have hnd : (p.1 == d') = false := by
        simp [hd]
        exact fun hc => hne hc.symm
      rw [List.find?_cons_of_neg _ (by simp [hnd]),
        List.find?_cons_of_neg _ (by simp [hnd])]
      exact ih
    · rw [if_neg (by simpa using hd)]
      by_cases hd' : p.1 = d'
      · rw [List.find?_cons_of_pos _ (by simpa using hd'),
          List.find?_cons_of_pos _ (by simpa using hd')]
      · rw [List.find?_cons_of_neg _ (by simpa using hd'),
          List.find?_cons_of_neg _ (by simpa using hd')]
        exact ih

theorem find?_map_entry_self (l : List (Nat × β)) (r : Nat) (g : Nat × β → β) :
    ((l.map (fun p => if p.1 == r then (p.1, g p) else p)).find?
      (fun p => p.1 == r)) = (l.find? (fun p => p.1 == r)).map (fun p => (p.1, g p)) := by
  induction l with
  | nil => rfl
  | cons p rest ih =>
    rw [List.map_cons]
    by_cases hr : p.1 = r
    · rw [if_pos (by simpa using hr)]
      rw [List.find?_cons_of_pos _ (by simpa using hr),
        List.find?_cons_of_pos _ (by simpa using hr)]
      rfl
    · rw [if_neg (by simpa using hr)]
      rw [List.find?_cons_of_neg _ (by simpa using hr),
        List.find?_cons_of_neg _ (by simpa using hr)]
      exact ih

theorem heapDict_ordersProperty_copy (h : SessionHeap) :
    heapDict (ordersProperty h).1 (ordersProperty h).2
      = heapDict h h.sessionOrders := by
  unfold heapDict ordersProperty
  rw [List.find?_cons_of_pos _ (by simp)]
  simp [heapDict]

theorem heapDict_ordersProperty_session (h : SessionHeap) (hwf : wfHeap h) :
    heapDict (ordersProperty h).1 h.sessionOrders = heapDict h h.sessionOrders := by
  have hne : h.counter ≠ h.sessionOrders :=
    fun hc => absurd hwf.1 (by rw [hc]; exact lt_irrefl _)
  unfold heapDict ordersProperty
  rw [List.find?_cons_of_neg _ (by simpa using hne)]

theorem heapObj_ordersProperty (h : SessionHeap) (r : Ref) :
    heapObj (ordersProperty h).1 r = heapObj h r := rfl

theorem heapDict_callerDictAssign_other (h : SessionHeap) (d d' : Nat) (k : String)
    (r : Ref) (hne : d' ≠ d) :
    heapDict (callerDictAssign h d k r) d' = heapDict h d' := by
  simp only [heapDict, callerDictAssign]
  rw [find?_map_entry_other _ _ _ _ hne]

theorem heapDict_callerDictRemove_other (h : SessionHeap) (d d' : Nat) (k : String)
    (hne : d' ≠ d) :
    heapDict (callerDictRemove h d k) d' = heapDict h d' := by
  simp only [heapDict, callerDictRemove]
  rw [find?_map_entry_other _ _ _ _ hne]

theorem heapObj_callerSetStatus_self (h : SessionHeap) (r : Ref) (st : OrderStatus) :
    heapObj (callerSetStatus h r st) r
      = (heapObj h r).map (fun o => { o with status := st }) := by
  simp only [heapObj, callerSetStatus]
  rw [find?_map_entry_self]
  cases h.objs.find? (fun p => p.1 == r) <;> rfl

/-- The session's Order map content for one concrete heap: an order
under key `"1_c1"` in SUBMITTED state at reference 0. -/
def exHeap : SessionHeap :=
  { counter := 1
    dicts := [(0, [("1_c1", 0)])]
    objs := [(0, { orderNo := "1_c1", status := .submitted })]
    sessionOrders := 0 }

/-- C9 counterexample: the `orders` property hands the caller a shallow
copy that contains the very reference 0 of the session's own Order
object; the caller's field mutation through that reference
(`order.status = CANCELED`) changes what the session reads from its
internal map - refuting "no mutation a caller performs on the returned
value can change the session's internal maps". -/
theorem defensiveCopyCounterexample :
    dictGet (heapDict (ordersProperty exHeap).1 (ordersProperty exHeap).2) "1_c1"
      = some 0 ∧
    (ordersProperty exHeap).2 ≠ exHeap.sessionOrders ∧
    (sessionView (ordersProperty exHeap).1).map
        (fun p => (p.1, p.2.map Order.status))
      = [("1_c1", some OrderStatus.submitted)] ∧
    (sessionView (callerSetStatus (ordersProperty exHeap).1 0 OrderStatus.canceled)).map
        (fun p => (p.1, p.2.map Order.status))
      = [("1_c1", some OrderStatus.canceled)] := by
  refine ⟨?_, ?_, ?_, ?_⟩ <;> decide

/-- C9 (amended): the properties return a SHALLOW copy.  The returned
container is a fresh dict object, so rebinding or removing entries in it
never changes the session's internal map; but the copy holds the same
Order references as the session's map, so a caller's field mutation on a
contained Order object is visible in the session's own view. -/
theorem defensiveCopyAmended (h : SessionHeap) (hwf : wfHeap h) :
    ((ordersProperty h).2 ≠ h.sessionOrders) ∧
    (heapDict (ordersProperty h).1 (ordersProperty h).2
      = heapDict h h.sessionOrders) ∧
    (∀ (k : String) (r : Ref),
      heapDict (callerDictAssign (ordersProperty h).1 (ordersProperty h).2 k r)
          h.sessionOrders
        = heapDict h h.sessionOrders) ∧
    (∀ k : String,
      heapDict (callerDictRemove (ordersProperty h).1 (ordersProperty h).2 k)
          h.sessionOrders
        = heapDict h h.sessionOrders) ∧
    (∀ (k : String) (r : Ref) (o : Order) (st : OrderStatus),
      dictGet (heapDict h h.sessionOrders) k = some r →
      heapObj h r = some o →
      dictGet (heapDict (ordersProperty h).1 (ordersProperty h).2) k = some r ∧
      heapObj (callerSetStatus (ordersProperty h).1 r st) r
        = some { o with status := st }) := by
  have hne : h.sessionOrders ≠ h.counter := Nat.ne_of_lt hwf.1
  refine ⟨?_, heapDict_ordersProperty_copy h, ?_, ?_, ?_⟩
  · exact fun hc => hne hc.symm
  · intro k r
    exact (heapDict_callerDictAssign_other (ordersProperty h).1 (ordersProperty h).2
      h.sessionOrders k r hne).trans (heapDict_ordersProperty_session h hwf)
  · intro k
    exact (heapDict_callerDictRemove_other (ordersProperty h).1 (ordersProperty h).2
      h.sessionOrders k hne).trans (heapDict_ordersProperty_session h hwf)
  · intro k r o st hk ho
    refine ⟨?_, ?_⟩
    · rw [heapDict_ordersProperty_copy h]
      exact hk
    · rw [heapObj_callerSetStatus_self, heapObj_ordersProperty, ho]
      rfl

theorem defensiveCopyAmended_witness :
    (ordersProperty exHeap).2 ≠ exHeap.sessionOrders ∧
    heapDict (callerDictRemove (ordersProperty exHeap).1 (ordersProperty exHeap).2
        "1_c1") exHeap.sessionOrders
      = heapDict exHeap exHeap.sessionOrders ∧
    heapObj (callerSetStatus (ordersProperty exHeap).1 0 OrderStatus.canceled) 0
      = some { orderNo := "1_c1", status := OrderStatus.canceled } :=
  have h := defensiveCopyAmended exHeap (by decide)
  ⟨h.1, h.2.2.2.1 "1_c1",
    (h.2.2.2.2 "1_c1" 0 { orderNo := "1_c1", status := .submitted }
      OrderStatus.canceled (by decide) (by decide)).2⟩

/- ------------------------------------------------------------------
   Event serialization (event.py lines 77-96): `Event.dumps` encodes
   `{"n": name, "d": data}` with `json.dumps` and `zlib.compress`;
   `Event.loads` decompresses, parses, and reads `d.get("n")` and
   `d.get("d")`.  The json and zlib libraries are external; they are
   modelled below as an executable codec pair over the JSON value
   fragment the events use, with the parser accepting exactly the
   printer's output format (Python's default separators `", "` and
   `": "`). -/

/-- The characters of a JSON string/key that `json.dumps` emits
verbatim (printable ASCII, no quote, no backslash); outside this set
Python would emit escape sequences, which the model excludes. -/
def wfChar (c : Char) : Bool :=
  32 ≤ c.toNat && c.toNat < 127 && c ≠ '"' && c ≠ '\\'

/-- ASCII decimal digit. -/
def isDigit (c : Char) : Bool :=
  48 ≤ c.toNat && c.toNat ≤ 57

/-- The digit character for `d < 10`. -/
def digitChar (d : Nat) : Char :=
  if d = 0 then '0' else if d = 1 then '1' else if d = 2 then '2'
  else if d = 3 then '3' else if d = 4 then '4' else if d = 5 then '5'
  else if d = 6 then '6' else if d = 7 then '7' else if d = 8 then '8' else '9'

/-- The numeric value of a digit character. -/
def digitVal (c : Char) : Nat := c.toNat - 48

/-- Decimal digits of a natural number, most significant first. -/
def natDigits (n : Nat) : List Char :=
  if h : n < 10 then [digitChar n]
  else natDigits (n / 10) ++ [digitChar (n % 10)]
termination_by n
decreasing_by exact Nat.div_lt_self (by omega) (by omega)

/-- Decimal rendering of an integer, as `json.dumps` prints it. -/
def intChars (n : Int) : List Char :=
  if n < 0 then '-' :: natDigits n.natAbs else natDigits n.natAbs

/-- Greedy digit consumption with accumulator, the number-parsing core
of the model parser. -/
def parseDigits (acc : Nat) : List Char → Nat × List Char
  | [] => (acc, [])
  | c :: cs =>
    if isDigit c then parseDigits (acc * 10 + digitVal c) cs else (acc, c :: cs)

/-- True when the input does not begin with a digit (so a preceding
number literal cannot swallow it). -/
def headNotDigit : List Char → Bool
  | [] => true
  | c :: _ => !isDigit c

theorem digitVal_digitChar (d : Nat) (h : d < 10) : digitVal (digitChar d) = d := by
  interval_cases d <;> decide

theorem isDigit_digitChar (d : Nat) (h : d < 10) : isDigit (digitChar d) = true := by
  interval_cases d <;> decide

theorem natDigits_all_digits (n : Nat) : (natDigits n).all isDigit = true := by
  induction n using Nat.strong_induction_on with
  | _ n ih =>
    unfold natDigits
    split
    · rename_i h
      simp [isDigit_digitChar n h]
    · rename_i h
      rw [List.all_append]
      have h1 := ih (n / 10) (Nat.div_lt_self (by omega) (by omega))
      simp [h1, isDigit_digitChar (n % 10) (Nat.mod_lt n (by omega))]

theorem natDigits_ne_nil (n : Nat) : natDigits n ≠ [] := by
  unfold natDigits
  split
  · simp
  · simp

theorem parseDigits_append (ds : List Char) (hds : ds.all isDigit = true)
    (rest : List Char) (hrest : headNotDigit rest = true) (acc : Nat) :
    parseDigits acc (ds ++ rest)
      = (ds.foldl (fun a c => a * 10 + digitVal c) acc, rest) := by
  induction ds generalizing acc with
  | nil =>
    cases rest with
    | nil => rfl
    | cons c cs =>
      unfold headNotDigit at hrest
      simp only [Bool.not_eq_true'] at hrest
      simp only [List.nil_append, List.foldl]
      unfold parseDigits
      rw [if_neg (by simp [hrest])]
  | cons c cs ih =>
    rw [List.all_cons, Bool.and_eq_true] at hds
    rw [List.cons_append]
    unfold parseDigits
    rw [if_pos hds.1]
    rw [ih hds.2]
    rfl

theorem natDigits_foldl (n : Nat) :
    (natDigits n).foldl (fun a c => a * 10 + digitVal c) 0 = n := by
  induction n using Nat.strong_induction_on with
  | _ n ih =>
    unfold natDigits
    split
    · rename_i h
      simp [List.foldl, digitVal_digitChar n h]
    · rename_i h
      rw [List.foldl_append]
      rw [ih (n / 10) (Nat.div_lt_self (by omega) (by omega))]
      simp only [List.foldl]
      rw [digitVal_digitChar (n % 10) (Nat.mod_lt n (by omega))]
      omega

theorem parseDigits_natDigits (n : Nat) (rest : List Char)
    (hrest : headNotDigit rest = true) :
    parseDigits 0 (natDigits n ++ rest) = (n, rest) := by
  rw [parseDigits_append (natDigits n) (natDigits_all_digits n) rest hrest 0,
    natDigits_foldl]

/-- The opening brace character. -/
def lbrace : Char := Char.ofNat 123

/-- The closing brace character. -/
def rbrace : Char := Char.ofNat 125

mutual

/-- Modelled from the spec: a JSON value of the fragment the event
payloads use (§4.2 "payload = compressed encoding of `{name, data}`";
`data` is a plain keyed structure): null, booleans, integers, strings,
arrays and objects. -/
inductive Json where
  | null
  | bool (b : Bool)
  | num (n : Int)
  | str (s : List Char)
  | arr (elems : JsonArr)
  | obj (entries : JsonObj)

/-- A list of JSON array elements. -/
inductive JsonArr where
  | nil
  | cons (hd : Json) (tl : JsonArr)

/-- A list of JSON object entries (key, value). -/
inductive JsonObj where
  | nil
  | cons (key : List Char) (val : Json) (tl : JsonObj)

end

mutual

/-- `json.dumps` with Python's default separators `", "` and `": "`,
restricted to the modelled fragment. -/
def printJson : Json → List Char
  | .null => 'n' :: 'u' :: 'l' :: 'l' :: []
  | .bool true => 't' :: 'r' :: 'u' :: 'e' :: []
  | .bool false => 'f' :: 'a' :: 'l' :: 's' :: 'e' :: []
  | .num n => intChars n
  | .str s => '"' :: (s ++ ['"'])
  | .arr .nil => ['[', ']']
  | .arr (.cons x xs) => '[' :: (printJson x ++ printArrTail xs ++ [']'])
  | .obj .nil => [lbrace, rbrace]
  | .obj (.cons k v kvs) =>
    lbrace :: ('"' :: (k ++ ['"', ':', ' '])) ++ printJson v ++ printObjTail kvs
      ++ [rbrace]

/-- Rendering of the remaining array elements, each preceded by `", "`. -/
def printArrTail : JsonArr → List Char
  | .nil => []
  | .cons x xs => ',' :: ' ' :: (printJson x ++ printArrTail xs)

/-- Rendering of the remaining object entries, each preceded by `", "`. -/
def printObjTail : JsonObj → List Char
  | .nil => []
  | .cons k v kvs =>
    ',' :: ' ' :: ('"' :: (k ++ ['"', ':', ' '])) ++ printJson v ++ printObjTail kvs

end

mutual

/-- Serializable values: every string consists of characters
`json.dumps` emits verbatim. -/
def wfJson : Json → Bool
  | .null => true
  | .bool _ => true
  | .num _ => true
  | .str s => s.all wfChar
  | .arr xs => wfArr xs
  | .obj kvs => wfObj kvs

def wfArr : JsonArr → Bool
  | .nil => true
  | .cons x xs => wfJson x && wfArr xs

def wfObj : JsonObj → Bool
  | .nil => true
  | .cons k v kvs => k.all wfChar && wfJson v && wfObj kvs

end

mutual

/-- Fuel measure of a JSON value for the parser below. -/
def jsonSize : Json → Nat
  | .null => 1
  | .bool _ => 1
  | .num _ => 1
  | .str _ => 1
  | .arr xs => 1 + arrSize xs
  | .obj kvs => 1 + objSize kvs

def arrSize : JsonArr → Nat
  | .nil => 1
  | .cons x xs => jsonSize x + arrSize xs

def objSize : JsonObj → Nat
  | .nil => 1
  | .cons _ v kvs => jsonSize v + objSize kvs

end

theorem jsonSize_pos (v : Json) : 1 ≤ jsonSize v := by
  cases v <;> simp [jsonSize]

theorem arrSize_pos (a : JsonArr) : 1 ≤ arrSize a := by
  cases a with
  | nil => simp [arrSize]
  | cons x xs => have := jsonSize_pos x; simp [arrSize]; omega

theorem objSize_pos (o : JsonObj) : 1 ≤ objSize o := by
  cases o with
  | nil => simp [objSize]
  | cons k v kvs => have := jsonSize_pos v; simp [objSize]; omega

/-- String-body scanner: consume characters up to the closing quote. -/
def parseStringBody : List Char → Option (List Char × List Char)
  | [] => none
  | c :: cs =>
    if c = '"' then some ([], cs)
    else
      match parseStringBody cs with
      | some (s, rest) => some (c :: s, rest)
      | none => none

theorem parseStringBody_roundtrip (s : List Char) (hs : s.all wfChar = true)
    (rest : List Char) :
    parseStringBody (s ++ '"' :: rest) = some (s, rest) := by
  induction s with
  | nil => rfl
  | cons c cs ih =>
    rw [List.all_cons, Bool.and_eq_true] at hs
    have hcq : ¬(c = '"') := by
      intro h
      rw [h] at hs
      exact absurd hs.1 (by decide)
    rw [List.cons_append]
    unfold parseStringBody
    rw [if_neg hcq, ih hs.2]

mutual

/-- Modelled from the spec: `json.loads` (the external json codec of
§4.2) as a fueled recursive-descent parser for a JSON value, accepting
exactly the output format of `printJson`. -/
def parseVal : Nat → List Char → Option (Json × List Char)
  | 0, _ => none
  | fuel + 1, cs =>
    match cs with
    | [] => none
    | c :: rest =>
      if c = 'n' then
        match rest with
        | 'u' :: 'l' :: 'l' :: rest1 => some (.null, rest1)
        | _ => none
      else if c = 't' then
        match rest with
        | 'r' :: 'u' :: 'e' :: rest1 => some (.bool true, rest1)
        | _ => none
      else if c = 'f' then
        match rest with
        | 'a' :: 'l' :: 's' :: 'e' :: rest1 => some (.bool false, rest1)
        | _ => none
      else if c = '"' then
        match parseStringBody rest with
        | some (s, rest1) => some (.str s, rest1)
        | none => none
      else if c = '[' then
        match rest with
        | [] => none
        | c1 :: rest1 =>
          if c1 = ']' then some (.arr .nil, rest1)
          else
            match parseVal fuel (c1 :: rest1) with
            | some (x, rest2) =>
              match parseArrTail fuel rest2 with
              | some (xs, rest3) => some (.arr (.cons x xs), rest3)
              | none => none
            | none => none
      else if c = lbrace then
        match rest with
        | [] => none
        | c1 :: rest1 =>
          if c1 = rbrace then some (.obj .nil, rest1)
          else if c1 = '"' then
            match parseStringBody rest1 with
            | some (k, rest2) =>
              match rest2 with
              | ':' :: ' ' :: rest3 =>
                match parseVal fuel rest3 with
                | some (v, rest4) =>
                  match parseObjTail fuel rest4 with
                  | some (kvs, rest5) => some (.obj (.cons k v kvs), rest5)
                  | none => none
                | none => none
              | _ => none
            | none => none
          else none
      else if c = '-' then
        match rest with
        | [] => none
        | c1 :: rest1 =>
          if isDigit c1 then
            some (.num (-(Int.ofNat (parseDigits 0 (c1 :: rest1)).1)),
              (parseDigits 0 (c1 :: rest1)).2)
          else none
      else if isDigit c then
        some (.num (Int.ofNat (parseDigits 0 (c :: rest)).1),
          (parseDigits 0 (c :: rest)).2)
      else none

/-- Parser for the remaining array elements after the first. -/
def parseArrTail : Nat → List Char → Option (JsonArr × List Char)
  | 0, _ => none
  | fuel + 1, cs =>
    match cs with
    | [] => none
    | c :: rest =>
      if c = ']' then some (.nil, rest)
      else if c = ',' then
        match rest with
        | ' ' :: rest1 =>
          match parseVal fuel rest1 with
          | some (x, rest2) =>
            match parseArrTail fuel rest2 with
            | some (xs, rest3) => some (.cons x xs, rest3)
            | none => none
          | none => none
        | _ => none
      else none

/-- Parser for the remaining object entries after the first. -/
def parseObjTail : Nat → List Char → Option (JsonObj × List Char)
  | 0, _ => none
  | fuel + 1, cs =>
    match cs with
    | [] => none
    | c :: rest =>
      if c = rbrace then some (.nil, rest)
      else if c = ',' then
        match rest with
        | ' ' :: '"' :: rest1 =>
          match parseStringBody rest1 with
          | some (k, rest2) =>
            match rest2 with
            | ':' :: ' ' :: rest3 =>
              match parseVal fuel rest3 with
              | some (v, rest4) =>
                match parseObjTail fuel rest4 with
                | some (kvs, rest5) => some (.cons k v kvs, rest5)
                | none => none
              | none => none
            | _ => none
          | none => none
        | _ => none
      else none

end

theorem printJson_ne_nil (v : Json) : printJson v ≠ [] := by
  cases v with
  | null => simp [printJson]
  | bool b => cases b <;> simp [printJson]
  | num n =>
    simp only [printJson, intChars]
    split
    · simp
    · exact natDigits_ne_nil _
  | str s => simp [printJson]
  | arr a => cases a <;> simp [printJson]
  | obj o => cases o <;> simp [printJson]

theorem printJson_head_ne_rbracket (v : Json) (c : Char) (cs : List Char)
    (h : printJson v = c :: cs) : ¬(c = ']') := by
  cases v with
  | null =>
    simp only [printJson, List.cons.injEq] at h
    exact fun hc => absurd (h.1.trans hc) (by decide)
  | bool b =>
    cases b <;> simp only [printJson, List.cons.injEq] at h <;>
      exact fun hc => absurd (h.1.trans hc) (by decide)
  | num n =>
    simp only [printJson, intChars] at h
    split at h
    · simp only [List.cons.injEq] at h
      exact fun hc => absurd (h.1.trans hc) (by decide)
    · have hall := natDigits_all_digits n.natAbs
      rw [h, List.all_cons, Bool.and_eq_true] at hall
      intro hc
      rw [hc] at hall
      exact absurd hall.1 (by decide)
  | str s =>
    simp only [printJson, List.cons.injEq] at h
    exact fun hc => absurd (h.1.trans hc) (by decide)
  | arr a =>
    cases a <;> simp only [printJson, List.cons.injEq, List.cons_append] at h <;>
      exact fun hc => absurd (h.1.trans hc) (by decide)
  | obj o =>
    cases o <;>
      simp only [printJson, List.cons.injEq, List.cons_append, List.append_assoc] at h <;>
      exact fun hc => absurd (h.1.trans hc) (by decide)

theorem headNotDigit_printArrTail (a : JsonArr) (rest : List Char) :
    headNotDigit (printArrTail a ++ ']' :: rest) = true := by
  cases a <;> rfl

theorem headNotDigit_printObjTail (o : JsonObj) (rest : List Char) :
    headNotDigit (printObjTail o ++ rbrace :: rest) = true := by
  cases o <;> rfl

theorem parseVal_digit (fuel : Nat) (c : Char) (rest : List Char)
    (hc : isDigit c = true) :
    parseVal (fuel + 1) (c :: rest)
      = some (.num (Int.ofNat (parseDigits 0 (c :: rest)).1),
          (parseDigits 0 (c :: rest)).2) := by
  have h1 : ¬(c = 'n') := fun h => absurd (h ▸ hc) (by decide)
  have h2 : ¬(c = 't') := fun h => absurd (h ▸ hc) (by decide)
  have h3 : ¬(c = 'f') := fun h => absurd (h ▸ hc) (by decide)
  have h4 : ¬(c = '"') := fun h => absurd (h ▸ hc) (by decide)
  have h5 : ¬(c = '[') := fun h => absurd (h ▸ hc) (by decide)
  have h6 : ¬(c = lbrace) := fun h => absurd (h ▸ hc) (by decide)
  have h7 : ¬(c = '-') := fun h => absurd (h ▸ hc) (by decide)
  simp only [parseVal]
  rw [if_neg h1, if_neg h2, if_neg h3, if_neg h4, if_neg h5, if_neg h6, if_neg h7,
    if_pos hc]

mutual

theorem parseVal_print : ∀ (v : Json) (fuel : Nat) (rest : List Char),
    wfJson v = true → jsonSize v ≤ fuel → headNotDigit rest = true →
    parseVal fuel (printJson v ++ rest) = some (v, rest)
  | v, 0, _ => fun _ hsz _ => absurd hsz (by have := jsonSize_pos v; omega)
  | .null, _ + 1, rest => fun _ _ _ => rfl
  | .bool true, _ + 1, rest => fun _ _ _ => rfl
  | .bool false, _ + 1, rest => fun _ _ _ => rfl
  | .str s, fuel + 1, rest => fun hwf _ _ => by
    have hshape : printJson (.str s) ++ rest = '"' :: (s ++ '"' :: rest) := by
      simp [printJson]
    have hred : parseVal (fuel + 1) ('"' :: (s ++ '"' :: rest))
        = match parseStringBody (s ++ '"' :: rest) with
          | some (t, rest1) => some (.str t, rest1)
          | none => none := rfl
    rw [hshape, hred, parseStringBody_roundtrip s (by simpa [wfJson] using hwf) rest]
  | .num n, fuel + 1, rest => fun _ _ hrest => by
    by_cases hneg : n < 0
    · have hshape : printJson (.num n) ++ rest = '-' :: (natDigits n.natAbs ++ rest) := by
        simp [printJson, intChars, hneg]
      rw [hshape]
      cases hnd : natDigits n.natAbs with
      | nil => exact absurd hnd (natDigits_ne_nil _)
      | cons d ds =>
        have hd : isDigit d = true := by
          have hall := natDigits_all_digits n.natAbs
          rw [hnd, List.all_cons, Bool.and_eq_true] at hall
          exact hall.1
        rw [List.cons_append]
        have hred : parseVal (fuel + 1) ('-' :: (d :: (ds ++ rest)))
            = if isDigit d then
                some (.num (-(Int.ofNat (parseDigits 0 (d :: (ds ++ rest))).1)),
                  (parseDigits 0 (d :: (ds ++ rest))).2)
              else none := rfl
        rw [hred, if_pos hd]
        have hpd : parseDigits 0 (d :: (ds ++ rest)) = (n.natAbs, rest) := by
          rw [show d :: (ds ++ rest) = natDigits n.natAbs ++ rest by rw [hnd]; rfl]
          exact parseDigits_natDigits _ rest hrest
        rw [hpd]
        have hn : -(Int.ofNat n.natAbs) = n := by
          rw [show Int.ofNat n.natAbs = (n.natAbs : Int) from rfl]
          omega
        rw [hn]
    · have hshape : printJson (.num n) ++ rest = natDigits n.natAbs ++ rest := by
        simp [printJson, intChars, hneg]
      rw [hshape]
      cases hnd : natDigits n.natAbs with
      | nil => exact absurd hnd (natDigits_ne_nil _)
      | cons d ds =>
        have hd : isDigit d = true := by
          have hall := natDigits_all_digits n.natAbs
          rw [hnd, List.all_cons, Bool.and_eq_true] at hall
          exact hall.1
        rw [List.cons_append, parseVal_digit fuel d (ds ++ rest) hd]
        have hpd : parseDigits 0 (d :: (ds ++ rest)) = (n.natAbs, rest) := by
          rw [show d :: (ds ++ rest) = natDigits n.natAbs ++ rest by rw [hnd]; rfl]
          exact parseDigits_natDigits _ rest hrest
        rw [hpd]
        have hn : Int.ofNat n.natAbs = n := by
          rw [show Int.ofNat n.natAbs = (n.natAbs : Int) from rfl]
          omega
        rw [hn]
  | .arr .nil, _ + 1, rest => fun _ _ _ => rfl
  | .arr (.cons x xs), fuel + 1, rest => fun hwf hsz hrest => by
    have hwf' : wfJson x = true ∧ wfArr xs = true := by
      simpa [wfJson, wfArr, Bool.and_eq_true] using hwf
    have hszx : jsonSize x ≤ fuel := by
      simp only [jsonSize, arrSize] at hsz
      have := arrSize_pos xs
      omega
    have hszxs : arrSize xs ≤ fuel := by
      simp only [jsonSize, arrSize] at hsz
      have := jsonSize_pos x
      omega
    have hshape : printJson (.arr (.cons x xs)) ++ rest
        = '[' :: (printJson x ++ (printArrTail xs ++ ']' :: rest)) := by
      simp [printJson]
    rw [hshape]
    cases hpx : printJson x with
    | nil => exact absurd hpx (printJson_ne_nil x)
    | cons c cs =>
      have hcne : ¬(c = ']') := printJson_head_ne_rbracket x c cs hpx
      rw [List.cons_append]
      have hred : parseVal (fuel + 1)
          ('[' :: (c :: (cs ++ (printArrTail xs ++ ']' :: rest))))
          = if c = ']' then some (.arr .nil, cs ++ (printArrTail xs ++ ']' :: rest))
            else
              match parseVal fuel (c :: (cs ++ (printArrTail xs ++ ']' :: rest))) with
              | some (y, rest2) =>
                match parseArrTail fuel rest2 with
                | some (ys, rest3) => some (.arr (.cons y ys), rest3)
                | none => none
              | none => none := rfl
      rw [hred, if_neg hcne]
      have hx := parseVal_print x fuel (printArrTail xs ++ ']' :: rest) hwf'.1 hszx
        (headNotDigit_printArrTail xs rest)
      rw [hpx, List.cons_append] at hx
      simp only [hx, parseArrTail_print xs fuel rest hwf'.2 hszxs hrest]
  | .obj .nil, _ + 1, rest => fun _ _ _ => rfl
  | .obj (.cons k v kvs), fuel + 1, rest => fun hwf hsz hrest => by
    have hwf' : k.all wfChar = true ∧ wfJson v = true ∧ wfObj kvs = true := by
      simpa [wfJson, wfObj, Bool.and_eq_true, and_assoc] using hwf
    have hszv : jsonSize v ≤ fuel := by
      simp only [jsonSize, objSize] at hsz
      have := objSize_pos kvs
      omega
    have hszkvs : objSize kvs ≤ fuel := by
      simp only [jsonSize, objSize] at hsz
      have := jsonSize_pos v
      omega
    have hshape : printJson (.obj (.cons k v kvs)) ++ rest
        = lbrace :: ('"' :: (k ++ '"' ::
            (':' :: ' ' :: (printJson v ++ (printObjTail kvs ++ rbrace :: rest))))) := by
      simp [printJson]
    rw [hshape]
    have hred : parseVal (fuel + 1) (lbrace :: ('"' :: (k ++ '"' ::
          (':' :: ' ' :: (printJson v ++ (printObjTail kvs ++ rbrace :: rest))))))
        = match parseStringBody (k ++ '"' ::
            (':' :: ' ' :: (printJson v ++ (printObjTail kvs ++ rbrace :: rest)))) with
          | some (k1, rest2) =>
            match rest2 with
            | ':' :: ' ' :: rest3 =>
              match parseVal fuel rest3 with
              | some (v1, rest4) =>
                match parseObjTail fuel rest4 with
                | some (kvs1, rest5) => some (.obj (.cons k1 v1 kvs1), rest5)
                | none => none
              | none => none
            | _ => none
          | none => none := rfl
    rw [hred]
    have hv := parseVal_print v fuel (printObjTail kvs ++ rbrace :: rest) hwf'.2.1 hszv
      (headNotDigit_printObjTail kvs rest)
    simp only [parseStringBody_roundtrip k hwf'.1, hv,
      parseObjTail_print kvs fuel rest hwf'.2.2 hszkvs hrest]

theorem parseArrTail_print : ∀ (a : JsonArr) (fuel : Nat) (rest : List Char),
    wfArr a = true → arrSize a ≤ fuel → headNotDigit rest = true →
    parseArrTail fuel (printArrTail a ++ ']' :: rest) = some (a, rest)
  | a, 0, _ => fun _ hsz _ => absurd hsz (by have := arrSize_pos a; omega)
  | .nil, _ + 1, rest => fun _ _ _ => rfl
  | .cons x xs, fuel + 1, rest => fun hwf hsz hrest => by
    have hwf' : wfJson x = true ∧ wfArr xs = true := by
      simpa [wfArr, Bool.and_eq_true] using hwf
    have hszx : jsonSize x ≤ fuel := by
      simp only [arrSize] at hsz
      have := arrSize_pos xs
      omega
    have hszxs : arrSize xs ≤ fuel := by
      simp only [arrSize] at hsz
      have := jsonSize_pos x
      omega
    have hshape : printArrTail (.cons x xs) ++ ']' :: rest
        = ',' :: (' ' :: (printJson x ++ (printArrTail xs ++ ']' :: rest))) := by
      simp [printArrTail]
    rw [hshape]
    have hred : parseArrTail (fuel + 1)
        (',' :: (' ' :: (printJson x ++ (printArrTail xs ++ ']' :: rest))))
        = match parseVal fuel (printJson x ++ (printArrTail xs ++ ']' :: rest)) with
          | some (y, rest2) =>
            match parseArrTail fuel rest2 with
            | some (ys, rest3) => some (JsonArr.cons y ys, rest3)
            | none => none
          | none => none := rfl
    rw [hred]
    have hx := parseVal_print x fuel (printArrTail xs ++ ']' :: rest) hwf'.1 hszx
      (headNotDigit_printArrTail xs rest)
    simp only [hx, parseArrTail_print xs fuel rest hwf'.2 hszxs hrest]

theorem parseObjTail_print : ∀ (o : JsonObj) (fuel : Nat) (rest : List Char),
    wfObj o = true → objSize o ≤ fuel → headNotDigit rest = true →
    parseObjTail fuel (printObjTail o ++ rbrace :: rest) = some (o, rest)
  | o, 0, _ => fun _ hsz _ => absurd hsz (by have := objSize_pos o; omega)
  | .nil, _ + 1, rest => fun _ _ _ => rfl
  | .cons k v kvs, fuel + 1, rest => fun hwf hsz hrest => by
    have hwf' : k.all wfChar = true ∧ wfJson v = true ∧ wfObj kvs = true := by
      simpa [wfObj, Bool.and_eq_true, and_assoc] using hwf
    have hszv : jsonSize v ≤ fuel := by
      simp only [objSize] at hsz
      have := objSize_pos kvs
      omega
    have hszkvs : objSize kvs ≤ fuel := by
      simp only [objSize] at hsz
      have := jsonSize_pos v
      omega
    have hshape : printObjTail (.cons k v kvs) ++ rbrace :: rest
        = ',' :: (' ' :: ('"' :: (k ++ '"' ::
            (':' :: ' ' :: (printJson v ++ (printObjTail kvs ++ rbrace :: rest)))))) := by
      simp [printObjTail]
    rw [hshape]
    have hred : parseObjTail (fuel + 1) (',' :: (' ' :: ('"' :: (k ++ '"' ::
          (':' :: ' ' :: (printJson v ++ (printObjTail kvs ++ rbrace :: rest)))))))
        = match parseStringBody (k ++ '"' ::
            (':' :: ' ' :: (printJson v ++ (printObjTail kvs ++ rbrace :: rest)))) with
          | some (k1, rest2) =>
            match rest2 with
            | ':' :: ' ' :: rest3 =>
              match parseVal fuel rest3 with
              | some (v1, rest4) =>
                match parseObjTail fuel rest4 with
                | some (kvs1, rest5) => some (JsonObj.cons k1 v1 kvs1, rest5)
                | none => none
              | none => none
            | _ => none
          | none => none := rfl
    rw [hred]
    have hv := parseVal_print v fuel (printObjTail kvs ++ rbrace :: rest) hwf'.2.1 hszv
      (headNotDigit_printObjTail kvs rest)
    simp only [parseStringBody_roundtrip k hwf'.1, hv,
      parseObjTail_print kvs fuel rest hwf'.2.2 hszkvs hrest]

end


mutual

theorem jsonSize_le_print : ∀ v : Json, jsonSize v ≤ (printJson v).length + 1
  | .null => by simp [jsonSize, printJson]
  | .bool b => by cases b <;> simp [jsonSize, printJson]
  | .num n => by simp only [jsonSize]; omega
  | .str s => by simp only [jsonSize]; omega
  | .arr .nil => by simp [jsonSize, arrSize, printJson]
  | .arr (.cons x xs) => by
    have h1 := jsonSize_le_print x
    have h2 := arrSize_le_print xs
    simp only [jsonSize, arrSize, printJson, List.length_cons, List.length_append]
    omega
  | .obj .nil => by simp [jsonSize, objSize, printJson]
  | .obj (.cons k v kvs) => by
    have h1 := jsonSize_le_print v
    have h2 := objSize_le_print kvs
    simp only [jsonSize, objSize, printJson, List.length_cons, List.length_append]
    omega

theorem arrSize_le_print : ∀ a : JsonArr, arrSize a ≤ (printArrTail a).length + 1
  | .nil => by simp [arrSize, printArrTail]
  | .cons x xs => by
    have h1 := jsonSize_le_print x
    have h2 := arrSize_le_print xs
    simp only [arrSize, printArrTail, List.length_cons, List.length_append]
    omega

theorem objSize_le_print : ∀ o : JsonObj, objSize o ≤ (printObjTail o).length + 1
  | .nil => by simp [objSize, printObjTail]
  | .cons k v kvs => by
    have h1 := jsonSize_le_print v
    have h2 := objSize_le_print kvs
    simp only [objSize, printObjTail, List.length_cons, List.length_append]
    omega

end

/-- Modelled from the spec: `json.loads` at the top level - parse the
entire decompressed text as one JSON value; a parse failure or trailing
garbage is a decode error (`none`). -/
def jsonLoads (s : List Char) : Option Json :=
  match parseVal (s.length + 1) s with
  | some (v, []) => some v
  | _ => none

theorem jsonLoads_print (v : Json) (hwf : wfJson v = true) :
    jsonLoads (printJson v) = some v := by
  unfold jsonLoads
  have h := parseVal_print v ((printJson v).length + 1) [] hwf
    (by have := jsonSize_le_print v; omega) rfl
  rw [List.append_nil] at h
  rw [h]

/-- Modelled from the spec: the external zlib codec used by
`Event.dumps`/`Event.loads` (§4.2 "compressed encoding"), as an
injective tagged byte encoding - compression prepends the zlib header
bytes 0x78 0x9c, and decompression rejects any input not produced by
the encoder, the model of `zlib.error` on corrupted data. -/
def zlibCompress (s : List Char) : List Nat :=
  120 :: 156 :: s.map Char.toNat

/-- Inverse of `zlibCompress` on its image; everything else errors. -/
def zlibDecompress (bs : List Nat) : Except Err (List Char) :=
  match bs with
  | 120 :: 156 :: rest => .ok (rest.map Char.ofNat)
  | _ => .error "incorrect header check"

theorem zlib_roundtrip (s : List Char) : zlibDecompress (zlibCompress s) = .ok s := by
  show Except.ok ((s.map Char.toNat).map Char.ofNat) = Except.ok s
  rw [List.map_map,
    show Char.ofNat ∘ Char.toNat = id by funext c; exact Char.ofNat_toNat c,
    List.map_id]

/-- The wrapper object `{"n": name, "d": data}` built by `Event.dumps`
(event.py lines 80-83). -/
def eventWrapper (name : List Char) (data : Json) : Json :=
  .obj (.cons ['n'] (.str name) (.cons ['d'] data .nil))

/-- `Event.dumps` (event.py lines 77-86): json-encode the wrapper
`{"n": name, "d": data}` and compress the text. -/
def eventDumps (name : List Char) (data : Json) : List Nat :=
  zlibCompress (printJson (eventWrapper name data))

/-- Python `dict.get` on a parsed JSON object; with duplicate keys the
last binding wins, as in the dict `json.loads` builds. -/
def jsonObjGet : JsonObj → List Char → Option Json
  | .nil, _ => none
  | .cons k v rest, key =>
    match jsonObjGet rest key with
    | some w => some w
    | none => if k = key then some v else none

/-- `Event.loads` (event.py lines 88-96): decompress, json-decode, then
read `d.get("n")` and `d.get("d")`.  Any failure - bad compressed data,
json decode error, or a payload that is not an object (so `.get`
raises) - surfaces as an error instead of a structured message. -/
def eventLoads (bs : List Nat) : Except Err (Option Json × Option Json) :=
  match zlibDecompress bs with
  | .error e => .error e
  | .ok s =>
    match jsonLoads s with
    | none => .error "json decode error"
    | some (.obj kvs) => .ok (jsonObjGet kvs ['n'], jsonObjGet kvs ['d'])
    | some _ => .error "attribute error"

theorem wf_eventWrapper (name : List Char) (data : Json)
    (hn : name.all wfChar = true) (hd : wfJson data = true) :
    wfJson (eventWrapper name data) = true := by
  have h1 : (['n'] : List Char).all wfChar = true := by decide
  have h2 : (['d'] : List Char).all wfChar = true := by decide
  simp [eventWrapper, wfJson, wfObj, hn, hd, h1, h2]

/-- C5: decoding the bytes produced by encoding an event
(`Event.loads` after `Event.dumps`) restores the original event type
name and payload data, for every serializable name and payload; and
decoding corrupted byte strings yields a reportable error rather than a
structured message (shown both for a broken compression header and for
intact compression around non-JSON text). -/
theorem eventDumpsLoadsRoundtrip :
    (∀ (name : List Char) (data : Json),
      name.all wfChar = true → wfJson data = true →
      eventLoads (eventDumps name data) = .ok (some (.str name), some data)) ∧
    eventLoads [0, 1, 2] = .error "incorrect header check" ∧
    eventLoads (zlibCompress ['x']) = .error "json decode error" := by
  refine ⟨?_, rfl, rfl⟩
  intro name data hn hd
  unfold eventDumps eventLoads
  simp only [zlib_roundtrip, jsonLoads_print _ (wf_eventWrapper name data hn hd)]
  simp [eventWrapper, jsonObjGet]

def exEventName : List Char := ['E', 'V', 'E', 'N', 'T', '_', 'O', 'R', 'D', 'E', 'R']

def exEventData : Json :=
  .obj (.cons ['p'] (.str ['o', 'k']) (.cons ['t'] (.num (-5)) .nil))

theorem eventDumpsLoadsRoundtrip_witness :
    eventLoads (eventDumps exEventName exEventData)
      = .ok (some (.str exEventName), some exEventData) :=
  eventDumpsLoadsRoundtrip.1 exEventName exEventData (by decide) (by decide)

end TheNextQuant
